import Mathlib

/-!
Verification of the chess rules engine (board, piece move geometry, codec,
check detection, move validation) against its natural-language specification.

The Python source is shallowly embedded: grids are lists of lists of optional
pieces, Python list subscripting (including negative-index wrap-around and
IndexError) is modelled by `pyGet`, and any code path that raises a Python
exception is modelled as `Except.error ()`.
-/

namespace Chess

inductive Color : Type
| white
| black
deriving DecidableEq, Repr

/-- The opposite color (`'black' if color == 'white' else 'white'`). -/
def other : Color → Color
| Color.white => Color.black
| Color.black => Color.white

inductive PieceKind : Type
| pawn
| knight
| bishop
| rook
| queen
| king
deriving DecidableEq, Repr

/-- A chess piece as plain data: its type, color and stored (row, col).
The Python object also carries a back-reference to the grid it occupies;
in this pure embedding that reference is supplied as an explicit grid
argument to every move-generation function (the engine maintains the
invariant that a piece's reference always points at its containing grid;
see `move_piece`, which repoints every clone). -/
structure Piece : Type where
  piece_type : PieceKind
  color : Color
  row : Int
  col : Int
deriving DecidableEq, Repr

/-- An 8x8 board: a Python list of 8 lists of 8 optional pieces. -/
abbrev Grid : Type := List (List (Option Piece))

/-- Resolve a Python list index: nonnegative indices address from the front,
negative indices at least `-n` wrap around from the back, anything else is
an IndexError. -/
def pyIdx (n : Nat) (i : Int) : Option Nat :=
  if 0 ≤ i ∧ i < (n : Int) then some i.toNat
  else if -(n : Int) ≤ i ∧ i < 0 then some (i + (n : Int)).toNat
  else none

instance {ε α : Type} [DecidableEq ε] [DecidableEq α] :
    DecidableEq (Except ε α) := fun a b =>
  match a, b with
  | Except.ok x, Except.ok y =>
    if h : x = y then isTrue (by rw [h])
    else isFalse (fun hh => h (by cases hh; rfl))
  | Except.error x, Except.error y =>
    if h : x = y then isTrue (by rw [h])
    else isFalse (fun hh => h (by cases hh; rfl))
  | Except.ok _, Except.error _ => isFalse (fun hh => Except.noConfusion hh)
  | Except.error _, Except.ok _ => isFalse (fun hh => Except.noConfusion hh)

/-- Python list subscript `xs[i]`: wraps negative indices, raises
(`Except.error`) when out of range. -/
def pyGet {α : Type} (xs : List α) (i : Int) : Except Unit α :=
  match pyIdx xs.length i with
  | some k =>
    match xs.get? k with
    | some a => Except.ok a
    | none => Except.error ()
  | none => Except.error ()

/-- Strict (non-wrapping) subscript: succeeds only for `0 ≤ i < xs.length`.
Used to express that a computation never relies on Python's negative-index
wrap-around. -/
def pyGetStrict {α : Type} (xs : List α) (i : Int) : Except Unit α :=
  if 0 ≤ i ∧ i < (xs.length : Int) then
    match xs.get? i.toNat with
    | some a => Except.ok a
    | none => Except.error ()
  else Except.error ()

/-- `self.grid[r][c]` with Python subscript semantics. -/
def gridGet (g : Grid) (r c : Int) : Except Unit (Option Piece) :=
  match pyGet g r with
  | Except.ok row => pyGet row c
  | Except.error e => Except.error e

/-- `self.grid[r][c]` through strict subscripts. -/
def gridGetStrict (g : Grid) (r c : Int) : Except Unit (Option Piece) :=
  match pyGetStrict g r with
  | Except.ok row => pyGetStrict row c
  | Except.error e => Except.error e

/-- The grid shape invariant: 8 rows of 8 cells. -/
def GridWF (g : Grid) : Prop :=
  g.length = 8 ∧ ∀ row ∈ g, row.length = 8

instance : DecidablePred GridWF := fun g =>
  decidable_of_iff (g.length = 8 ∧ ∀ row ∈ g, row.length = 8) Iff.rfl

/-- `new_grid[r][c] = v` (functional update of one cell). -/
def set_cell (g : Grid) (r c : Nat) (v : Option Piece) : Grid :=
  g.set r (((g.get? r).getD []).set c v)

/-- The file letters `"ABCDEFGH"` as Python sees them (a sequence of chars). -/
def files : List Char := ['A', 'B', 'C', 'D', 'E', 'F', 'G', 'H']

def rankChars : List Char := ['1', '2', '3', '4', '5', '6', '7', '8']

/-- `StaticChessMethods.indices_to_uci(row, col)`: `rank = row + 1`,
`file = "ABCDEFGH"[col]`, result `file + str(rank)`.  The source has no
bounds guard: a negative `col` wraps, `col` past the end raises, and any
`row` is accepted (`row = -1` yields a rank of `0`). -/
def indices_to_uci (row col : Int) : Except Unit String :=
  let rank : Int := row + 1
  match pyGet files col with
  | Except.ok file => Except.ok (String.mk [file] ++ toString rank)
  | Except.error e => Except.error e

/-- Python `str.strip()`: drop leading and trailing whitespace (written on
the character list with structural recursion so that it evaluates inside
the kernel). -/
def strip_chars (s : List Char) : List Char :=
  ((s.dropWhile Char.isWhitespace).reverse.dropWhile Char.isWhitespace).reverse

/-- `StaticChessMethods.uci_to_indices(position)` (the body of
`Board.position_to_indices` is textually identical): strip, upcase, demand
exactly one file letter A-H and one rank digit 1-8, else `(None, None)`. -/
def uci_to_indices (position : String) : Option (Int × Int) :=
  match (strip_chars position.toList).map Char.toUpper with
  | [file_char, rank_char] =>
    if files.contains file_char ∧ rankChars.contains rank_char then
      some (((rank_char.toNat : Int) - ('1'.toNat : Int)),
            ((file_char.toNat : Int) - ('A'.toNat : Int)))
    else none
  | _ => none

/-- `Board.position_to_indices` — same source text as `uci_to_indices`. -/
def position_to_indices (position : String) : Option (Int × Int) :=
  uci_to_indices position

/-- `Board.get_piece(position)`: `None` for a malformed square, otherwise
the grid cell (reading a well-formed square of a well-formed grid never
raises). -/
def get_piece (g : Grid) (position : String) : Except Unit (Option Piece) :=
  match position_to_indices position with
  | none => Except.ok none
  | some (row, col) => gridGet g row col

/-- Effectful map over a list in the `Except Unit` monad, written by
explicit recursion so its behavior is easy to reason about. -/
def mapE {α β : Type} (f : α → Except Unit β) : List α → Except Unit (List β)
  | [] => Except.ok []
  | a :: as =>
    match f a with
    | Except.error e => Except.error e
    | Except.ok b =>
      match mapE f as with
      | Except.error e => Except.error e
      | Except.ok bs => Except.ok (b :: bs)

def ints8 : List Int := [0, 1, 2, 3, 4, 5, 6, 7]

/-- All 64 board squares in the row-major order of the source's nested
`for row in range(8): for col in range(8)` loops. -/
def squares64 : List (Int × Int) :=
  (ints8.map (fun r => ints8.map (fun c => (r, c)))).flatten

/-- The first copy loop of `Board.move_piece`: read every cell of the old
grid (`cur_piece.copy()` duplicates a piece's plain fields, so on this data
representation the clone equals the original; the second loop's
`set_grid(new_grid)` repoints the clones' back-references, a no-op here
because grids are passed explicitly — the allocation-aware model below
tracks both faithfully). -/
def copy_grid (g : Grid) : Except Unit Grid :=
  mapE (fun r => mapE (fun c => gridGet g r c) ints8) ints8

/-- The grid-update core of `move_piece` once both squares have resolved and
the source piece is in hand: relocate the source piece (`set_row_col` then
the two cell writes in source order), then overwrite the destination with a
new Queen when a pawn has reached the far rank. -/
def apply_move (g : Grid) (source_row source_col dest_row dest_col : Int)
    (piece0 : Piece) : Grid :=
  let piece : Piece := { piece0 with row := dest_row, col := dest_col }
  let g1 := set_cell g dest_row.toNat dest_col.toNat (some piece)
  let g2 := set_cell g1 source_row.toNat source_col.toNat none
  if piece.piece_type = PieceKind.pawn then
    if piece.color = Color.white ∧ dest_row = 7 then
      set_cell g2 dest_row.toNat dest_col.toNat
        (some ⟨PieceKind.queen, Color.white, dest_row, dest_col⟩)
    else if piece.color = Color.black ∧ dest_row = 0 then
      set_cell g2 dest_row.toNat dest_col.toNat
        (some ⟨PieceKind.queen, Color.black, dest_row, dest_col⟩)
    else g2
  else g2

/-- `Board.move_piece(source, destination)`.  Copies the grid, resolves the
two squares, relocates the source piece, records the captured piece, clears
the source square, and applies forced queen promotion.  A source that does
not resolve to a piece makes Python raise (TypeError on `new_grid[None]` or
AttributeError on `None.set_row_col`), modelled as `Except.error ()`; there
is no return path yielding a null board, so the successful result always
carries `some` grid. -/
def move_piece (g : Grid) (source destination : String) :
    Except Unit (Option Grid × Option Piece) :=
  match copy_grid g with
  | Except.error e => Except.error e
  | Except.ok new_grid =>
    match position_to_indices source, position_to_indices destination with
    | some (source_row, source_col), some (dest_row, dest_col) =>
      match gridGet new_grid source_row source_col with
      | Except.error e => Except.error e
      | Except.ok none => Except.error ()
      | Except.ok (some piece0) =>
        match gridGet new_grid dest_row dest_col with
        | Except.error e => Except.error e
        | Except.ok captured =>
          Except.ok
            (some (apply_move new_grid source_row source_col dest_row dest_col
              piece0), captured)
    | _, _ => Except.error ()

/-! ### Piece move geometry (`pieces.py`, the `get_legal_moves` methods) -/

def steps7 : List Int := [1, 2, 3, 4, 5, 6, 7]

def steps1 : List Int := [1]

/-- One direction of a sliding loop (`for i in range(1, 8)` with `break`):
stop at the board edge, include an enemy square then stop, stop before a
friendly square. `King` uses the same body with `range(1, 2)`. -/
def walk (g : Grid) (color : Color) (row col fd hd : Int) :
    List Int → Except Unit (List String)
  | [] => Except.ok []
  | i :: rest =>
    let cur_row := row + i * fd
    let cur_col := col + i * hd
    if cur_row < 0 ∨ cur_row > 7 ∨ cur_col < 0 ∨ cur_col > 7 then Except.ok []
    else
      match gridGet g cur_row cur_col with
      | Except.error e => Except.error e
      | Except.ok none =>
        match indices_to_uci cur_row cur_col with
        | Except.error e => Except.error e
        | Except.ok u =>
          match walk g color row col fd hd rest with
          | Except.error e => Except.error e
          | Except.ok tail => Except.ok (u :: tail)
      | Except.ok (some p) =>
        if p.color ≠ color then
          match indices_to_uci cur_row cur_col with
          | Except.error e => Except.error e
          | Except.ok u => Except.ok [u]
        else Except.ok []

/-- Iterate `walk` over a direction table, concatenating in table order. -/
def walk_dirs (g : Grid) (color : Color) (row col : Int)
    (dirs : List (Int × Int)) (steps : List Int) : Except Unit (List String) :=
  match mapE (fun d => walk g color row col d.1 d.2 steps) dirs with
  | Except.error e => Except.error e
  | Except.ok ls => Except.ok ls.flatten

/-- `(forward_directions, horizontal_directions)` zipped, first blocks. -/
def rook_dirs : List (Int × Int) := [(-1, 0), (1, 0), (0, -1), (0, 1)]

/-- The diagonal direction table, second blocks. -/
def bishop_dirs : List (Int × Int) := [(-1, 1), (-1, -1), (1, 1), (1, -1)]

def rook_get_legal_moves (p : Piece) (g : Grid) : Except Unit (List String) :=
  walk_dirs g p.color p.row p.col rook_dirs steps7

def bishop_get_legal_moves (p : Piece) (g : Grid) : Except Unit (List String) :=
  walk_dirs g p.color p.row p.col bishop_dirs steps7

/-- `Queen.get_legal_moves`: the rook block followed by the bishop block. -/
def queen_get_legal_moves (p : Piece) (g : Grid) : Except Unit (List String) :=
  match walk_dirs g p.color p.row p.col rook_dirs steps7 with
  | Except.error e => Except.error e
  | Except.ok ms1 =>
    match walk_dirs g p.color p.row p.col bishop_dirs steps7 with
    | Except.error e => Except.error e
    | Except.ok ms2 => Except.ok (ms1 ++ ms2)

/-- `King.get_legal_moves`: same two blocks with `range(1, 2)`. -/
def king_get_legal_moves (p : Piece) (g : Grid) : Except Unit (List String) :=
  match walk_dirs g p.color p.row p.col rook_dirs steps1 with
  | Except.error e => Except.error e
  | Except.ok ms1 =>
    match walk_dirs g p.color p.row p.col bishop_dirs steps1 with
    | Except.error e => Except.error e
    | Except.ok ms2 => Except.ok (ms1 ++ ms2)

/-- The eight knight offsets, in the source's `zip` order. -/
def knight_offsets : List (Int × Int) :=
  [(-2, -1), (-2, 1), (-1, -2), (-1, 2), (1, -2), (1, 2), (2, -1), (2, 1)]

/-- The body of the knight's offset loop: bounds check, then include the
square when it is empty or enemy-occupied. -/
def knight_step (g : Grid) (p : Piece) (o : Int × Int) :
    Except Unit (List String) :=
  if 0 ≤ p.row + o.1 ∧ 0 ≤ p.col + o.2 ∧ p.row + o.1 ≤ 7 ∧ p.col + o.2 ≤ 7 then
    match gridGet g (p.row + o.1) (p.col + o.2) with
    | Except.error e => Except.error e
    | Except.ok (some q) =>
      if q.color ≠ p.color then
        match indices_to_uci (p.row + o.1) (p.col + o.2) with
        | Except.error e => Except.error e
        | Except.ok u => Except.ok [u]
      else Except.ok []
    | Except.ok none =>
      match indices_to_uci (p.row + o.1) (p.col + o.2) with
      | Except.error e => Except.error e
      | Except.ok u => Except.ok [u]
  else Except.ok []

def knight_get_legal_moves (p : Piece) (g : Grid) : Except Unit (List String) :=
  match mapE (knight_step g p) knight_offsets with
  | Except.error e => Except.error e
  | Except.ok ls => Except.ok ls.flatten

/-- The pawn's forward-one block: the destination is included only when it
is empty.  `acc` is the grid accessor (Python or strict subscripts). -/
def pawn_forward_block (acc : Grid → Int → Int → Except Unit (Option Piece))
    (g : Grid) (forward_rank col : Int) : Except Unit (List String) :=
  match acc g forward_rank col with
  | Except.error e => Except.error e
  | Except.ok fwd =>
    if fwd = none then
      match indices_to_uci forward_rank col with
      | Except.error e => Except.error e
      | Except.ok u => Except.ok [u]
    else Except.ok []

/-- One pawn diagonal block: the column (only) is bounds-checked, the square
must hold an enemy piece. -/
def pawn_diag_block (acc : Grid → Int → Int → Except Unit (Option Piece))
    (g : Grid) (color : Color) (forward_rank dcol : Int) :
    Except Unit (List String) :=
  if 0 ≤ dcol ∧ dcol ≤ 7 then
    match acc g forward_rank dcol with
    | Except.error e => Except.error e
    | Except.ok (some q) =>
      if q.color ≠ color then
        match indices_to_uci forward_rank dcol with
        | Except.error e => Except.error e
        | Except.ok u => Except.ok [u]
      else Except.ok []
    | Except.ok none => Except.ok []
  else Except.ok []

/-- The pawn's home-row double-move block: the `if` tests the emptiness of
the forward-two square itself (`forward_rank` has already been advanced by
the source's `forward_rank += direction`), not of the intervening square. -/
def pawn_double_block (acc : Grid → Int → Int → Except Unit (Option Piece))
    (g : Grid) (row starting_row direction col : Int) :
    Except Unit (List String) :=
  if row = starting_row then
    match acc g (row + direction + direction) col with
    | Except.error e => Except.error e
    | Except.ok f2 =>
      if f2 = none then
        match indices_to_uci (row + direction + direction) col with
        | Except.error e => Except.error e
        | Except.ok u => Except.ok [u]
      else Except.ok []
  else Except.ok []

/-- `Pawn.get_legal_moves`, parameterized by the grid accessor so that the
exact same source translation can be read either with Python subscript
semantics (`gridGet`) or with strict bounds (`gridGetStrict`): forward one,
left diagonal, right diagonal, then the double move, appended in source
order. -/
def pawn_get_legal_moves_via (acc : Grid → Int → Int → Except Unit (Option Piece))
    (p : Piece) (g : Grid) : Except Unit (List String) :=
  let direction : Int := if p.color = Color.white then 1 else -1
  let starting_row : Int := if p.color = Color.white then 1 else 6
  let forward_rank := p.row + direction
  match pawn_forward_block acc g forward_rank p.col with
  | Except.error e => Except.error e
  | Except.ok m1 =>
    match pawn_diag_block acc g p.color forward_rank (p.col - 1) with
    | Except.error e => Except.error e
    | Except.ok m2 =>
      match pawn_diag_block acc g p.color forward_rank (p.col + 1) with
      | Except.error e => Except.error e
      | Except.ok m3 =>
        match pawn_double_block acc g p.row starting_row direction p.col with
        | Except.error e => Except.error e
        | Except.ok m4 => Except.ok (m1 ++ m2 ++ m3 ++ m4)

def pawn_get_legal_moves (p : Piece) (g : Grid) : Except Unit (List String) :=
  pawn_get_legal_moves_via gridGet p g

/-- The same pawn source read with strict (never wrapping) subscripts. -/
def pawn_get_legal_moves_strict (p : Piece) (g : Grid) : Except Unit (List String) :=
  pawn_get_legal_moves_via gridGetStrict p g

/-- Dispatch on `piece_type`, as the dynamic method call does. -/
def get_legal_moves (p : Piece) (g : Grid) : Except Unit (List String) :=
  match p.piece_type with
  | PieceKind.pawn => pawn_get_legal_moves p g
  | PieceKind.knight => knight_get_legal_moves p g
  | PieceKind.bishop => bishop_get_legal_moves p g
  | PieceKind.rook => rook_get_legal_moves p g
  | PieceKind.queen => queen_get_legal_moves p g
  | PieceKind.king => king_get_legal_moves p g

/-! ### The geometric point-query validator (`move_validator.py`) -/

/-- The `while current != dest` walk of `MoveValidator.is_path_clear`,
with fuel: the Python loop does not terminate when the step never reaches
the destination (callers prevent this), which the fuel-exhausted
`Except.error` stands in for. -/
def path_clear_loop (g : Grid) (dest_row dest_col row_step col_step : Int) :
    Nat → Int → Int → Except Unit Bool
  | 0, _, _ => Except.error ()
  | fuel + 1, current_row, current_col =>
    if current_row = dest_row ∧ current_col = dest_col then Except.ok true
    else
      match gridGet g current_row current_col with
      | Except.error e => Except.error e
      | Except.ok (some _) => Except.ok false
      | Except.ok none =>
        path_clear_loop g dest_row dest_col row_step col_step fuel
          (current_row + row_step) (current_col + col_step)

def is_path_clear (g : Grid) (source_row source_col dest_row dest_col : Int) :
    Except Unit Bool :=
  let row_step : Int :=
    if source_row = dest_row then 0 else if dest_row > source_row then 1 else -1
  let col_step : Int :=
    if source_col = dest_col then 0 else if dest_col > source_col then 1 else -1
  path_clear_loop g dest_row dest_col row_step col_step 16
    (source_row + row_step) (source_col + col_step)

def validate_pawn_move (g : Grid) (source_row source_col dest_row dest_col : Int)
    (color : Color) (dest_piece : Option Piece) : Except Unit (Bool × String) :=
  let direction : Int := if color = Color.white then 1 else -1
  let starting_row : Int := if color = Color.white then 1 else 6
  let row_diff := dest_row - source_row
  let col_diff := (dest_col - source_col).natAbs
  if col_diff = 0 then
    if dest_piece ≠ none then Except.ok (false, "Pawn cannot capture forward")
    else if row_diff = direction then Except.ok (true, "")
    else if row_diff = 2 * direction ∧ source_row = starting_row then
      let middle_row := source_row + direction
      match gridGet g middle_row source_col with
      | Except.error e => Except.error e
      | Except.ok none => Except.ok (true, "")
      | Except.ok (some _) => Except.ok (false, "Path is blocked")
    else Except.ok (false, "Invalid pawn move")
  else if col_diff = 1 ∧ row_diff = direction then
    if dest_piece ≠ none then Except.ok (true, "")
    else Except.ok (false, "Pawn can only move diagonally to capture")
  else Except.ok (false, "Invalid pawn move")

def validate_rook_move (g : Grid) (source_row source_col dest_row dest_col : Int) :
    Except Unit (Bool × String) :=
  if source_row ≠ dest_row ∧ source_col ≠ dest_col then
    Except.ok (false, "Rook must move horizontally or vertically")
  else
    match is_path_clear g source_row source_col dest_row dest_col with
    | Except.error e => Except.error e
    | Except.ok false => Except.ok (false, "Path is blocked")
    | Except.ok true => Except.ok (true, "")

def validate_knight_move (source_row source_col dest_row dest_col : Int) :
    Except Unit (Bool × String) :=
  let row_diff := (dest_row - source_row).natAbs
  let col_diff := (dest_col - source_col).natAbs
  if (row_diff = 2 ∧ col_diff = 1) ∨ (row_diff = 1 ∧ col_diff = 2) then
    Except.ok (true, "")
  else Except.ok (false, "Invalid knight move (must be L-shaped)")

def validate_bishop_move (g : Grid) (source_row source_col dest_row dest_col : Int) :
    Except Unit (Bool × String) :=
  let row_diff := (dest_row - source_row).natAbs
  let col_diff := (dest_col - source_col).natAbs
  if row_diff ≠ col_diff then
    Except.ok (false, "Bishop must move diagonally")
  else
    match is_path_clear g source_row source_col dest_row dest_col with
    | Except.error e => Except.error e
    | Except.ok false => Except.ok (false, "Path is blocked")
    | Except.ok true => Except.ok (true, "")

def validate_queen_move (g : Grid) (source_row source_col dest_row dest_col : Int) :
    Except Unit (Bool × String) :=
  let row_diff := (dest_row - source_row).natAbs
  let col_diff := (dest_col - source_col).natAbs
  let is_horizontal_vertical := source_row = dest_row ∨ source_col = dest_col
  let is_diagonal := row_diff = col_diff
  if ¬(is_horizontal_vertical ∨ is_diagonal) then
    Except.ok (false, "Queen must move horizontally, vertically, or diagonally")
  else
    match is_path_clear g source_row source_col dest_row dest_col with
    | Except.error e => Except.error e
    | Except.ok false => Except.ok (false, "Path is blocked")
    | Except.ok true => Except.ok (true, "")

def validate_king_move (source_row source_col dest_row dest_col : Int) :
    Except Unit (Bool × String) :=
  let row_diff := (dest_row - source_row).natAbs
  let col_diff := (dest_col - source_col).natAbs
  if row_diff ≤ 1 ∧ col_diff ≤ 1 then Except.ok (true, "")
  else Except.ok (false, "King can only move one square")

/-- `MoveValidator.is_valid_move` as it stands in `move_validator.py`:
the codec, ownership and geometry point query (this file's revision of the
validator predates the simulate-and-check sweep; the current engine's
`is_valid_move` below falls back to exactly this diagnosis sequence). -/
def is_valid_move_src (g : Grid) (source destination : String)
    (current_player : Color) : Except Unit (Bool × String) :=
  match position_to_indices source, position_to_indices destination with
  | some (source_row, source_col), some (dest_row, dest_col) =>
    match get_piece g source with
    | Except.error e => Except.error e
    | Except.ok none => Except.ok (false, "No piece at source position")
    | Except.ok (some piece) =>
      if piece.color ≠ current_player then
        Except.ok (false, "That's not your piece")
      else if source_row = dest_row ∧ source_col = dest_col then
        Except.ok (false, "Source and destination are the same")
      else
        match get_piece g destination with
        | Except.error e => Except.error e
        | Except.ok dest_piece =>
          if dest_piece.map Piece.color = some current_player then
            Except.ok (false, "Cannot capture your own piece")
          else
            match piece.piece_type with
            | PieceKind.pawn =>
              validate_pawn_move g source_row source_col dest_row dest_col
                piece.color dest_piece
            | PieceKind.rook =>
              validate_rook_move g source_row source_col dest_row dest_col
            | PieceKind.knight =>
              validate_knight_move source_row source_col dest_row dest_col
            | PieceKind.bishop =>
              validate_bishop_move g source_row source_col dest_row dest_col
            | PieceKind.queen =>
              validate_queen_move g source_row source_col dest_row dest_col
            | PieceKind.king =>
              validate_king_move source_row source_col dest_row dest_col
  | _, _ => Except.ok (false, "Invalid position format")

/-! ### Check detection

Modelled from the spec: the current `CheckDetector.is_in_check(color, grid)`
called statically by `game.py` and the integration tests is absent from
`src/utils/check_detector.py` (which holds an older instance-method
revision); §4.4 of the spec describes it. -/

/-- Modelled from the spec: `find_king(color, grid)` — linear scan of all 64
squares, first King of the color, or none (missing from `src/`; only the
older revision's equivalent exists there). -/
def find_king_scan (g : Grid) (color : Color) :
    List (Int × Int) → Except Unit (Option (Int × Int))
  | [] => Except.ok none
  | (r, c) :: rest =>
    match gridGet g r c with
    | Except.error e => Except.error e
    | Except.ok (some p) =>
      if p.piece_type = PieceKind.king ∧ p.color = color then Except.ok (some (r, c))
      else find_king_scan g color rest
    | Except.ok none => find_king_scan g color rest

def find_king (g : Grid) (color : Color) : Except Unit (Option (Int × Int)) :=
  find_king_scan g color squares64

/-- Modelled from the spec: the scan of `is_in_check` — for each piece of
the enemy color, ask it for its pseudo-legal destinations and return true
the first time one equals the king's square. -/
def first_attack (g : Grid) (king_pos : String) (enemy_color : Color) :
    List (Int × Int) → Except Unit Bool
  | [] => Except.ok false
  | (r, c) :: rest =>
    match gridGet g r c with
    | Except.error e => Except.error e
    | Except.ok none => first_attack g king_pos enemy_color rest
    | Except.ok (some piece) =>
      if piece.color ≠ enemy_color then first_attack g king_pos enemy_color rest
      else
        match get_legal_moves piece g with
        | Except.error e => Except.error e
        | Except.ok ms =>
          if king_pos ∈ ms then Except.ok true
          else first_attack g king_pos enemy_color rest

/-- Modelled from the spec: `is_in_check(color, grid)` — false immediately
when the king is absent, otherwise scan every square for an enemy piece
whose pseudo-legal destinations contain the king's algebraic square.  A
pure read; no board mutation. -/
def is_in_check (color : Color) (g : Grid) : Except Unit Bool :=
  match find_king g color with
  | Except.error e => Except.error e
  | Except.ok none => Except.ok false
  | Except.ok (some (king_row, king_col)) =>
    match indices_to_uci king_row king_col with
    | Except.error e => Except.error e
    | Except.ok king_pos => first_attack g king_pos (other color) squares64

/-! ### The legal-move sweep

Modelled from the spec: `MoveValidator.generate_valid_moves` is called by
`game.py` and the tests but absent from `src/utils/move_validator.py`;
§4.5 of the spec describes it. -/

/-- Modelled from the spec: the pseudo-legal `(source, destination)` pairs of
one square's piece, when it belongs to the given color. -/
def pairs_at (g : Grid) (color : Color) (rc : Int × Int) :
    Except Unit (List (String × String)) :=
  match gridGet g rc.1 rc.2 with
  | Except.error e => Except.error e
  | Except.ok none => Except.ok []
  | Except.ok (some p) =>
    if p.color = color then
      match indices_to_uci rc.1 rc.2 with
      | Except.error e => Except.error e
      | Except.ok s =>
        match get_legal_moves p g with
        | Except.error e => Except.error e
        | Except.ok ds => Except.ok (ds.map (fun d => (s, d)))
    else Except.ok []

/-- Modelled from the spec: every piece of the color, every pseudo-legal
destination, in board-scan order. -/
def pseudo_pairs (g : Grid) (color : Color) : Except Unit (List (String × String)) :=
  match mapE (pairs_at g color) squares64 with
  | Except.error e => Except.error e
  | Except.ok ls => Except.ok ls.flatten

/-- Modelled from the spec: materialize one candidate move via `move_piece`
and test `is_in_check` on the resulting grid. -/
def classify_move (g : Grid) (color : Color) (sd : String × String) :
    Except Unit ((String × String) × Bool) :=
  match move_piece g sd.1 sd.2 with
  | Except.error e => Except.error e
  | Except.ok (none, _) => Except.error ()
  | Except.ok (some g2, _) =>
    match is_in_check color g2 with
    | Except.error e => Except.error e
    | Except.ok b => Except.ok (sd, b)

/-- Modelled from the spec: `generate_valid_moves(color)` returns
`(legal_moves, self_check_moves)`, both as space-joined
`"<source> <destination>"` strings: a candidate goes to `legal_moves` when
the simulated position does not leave `color` in check, to
`self_check_moves` when it does. -/
def generate_valid_moves (g : Grid) (color : Color) :
    Except Unit (List String × List String) :=
  match pseudo_pairs g color with
  | Except.error e => Except.error e
  | Except.ok prs =>
    match mapE (classify_move g color) prs with
    | Except.error e => Except.error e
    | Except.ok cls =>
      Except.ok
        ((cls.filter (fun x => !x.2)).map (fun x => x.1.1 ++ " " ++ x.1.2),
         (cls.filter (fun x => x.2)).map (fun x => x.1.1 ++ " " ++ x.1.2))

/-- Modelled from the spec: the current engine's `is_valid_move` (§4.5) —
codec check, then membership in `legal_moves` (succeed) or in
`self_check_moves` (fail with the fixed king-jeopardy message), otherwise
fall back to the diagnosis sequence, which is exactly the point query
`is_valid_move_src` still present in `src/utils/move_validator.py`. -/
def is_valid_move (g : Grid) (source destination : String) (mover : Color) :
    Except Unit (Bool × String) :=
  match uci_to_indices source, uci_to_indices destination with
  | some (source_row, source_col), some (dest_row, dest_col) =>
    match indices_to_uci source_row source_col,
        indices_to_uci dest_row dest_col with
    | Except.ok s, Except.ok d =>
      match generate_valid_moves g mover with
      | Except.error e => Except.error e
      | Except.ok (legal_moves, self_check_moves) =>
        let mv := s ++ " " ++ d
        if mv ∈ legal_moves then Except.ok (true, "")
        else if mv ∈ self_check_moves then
          Except.ok (false, "Can't put your king in jeopardy")
        else is_valid_move_src g source destination mover
    | _, _ => Except.error ()
  | _, _ => Except.ok (false, "Invalid position format")

/-! ### The initial position (`Board.setup_initial_position`) -/

/-- The back rank of one color: Rook, Knight, Bishop, Queen, King, Bishop,
Knight, Rook on files A-H of row `r`. -/
def back_rank (color : Color) (r : Int) : List (Option Piece) :=
  [some ⟨PieceKind.rook, color, r, 0⟩, some ⟨PieceKind.knight, color, r, 1⟩,
   some ⟨PieceKind.bishop, color, r, 2⟩, some ⟨PieceKind.queen, color, r, 3⟩,
   some ⟨PieceKind.king, color, r, 4⟩, some ⟨PieceKind.bishop, color, r, 5⟩,
   some ⟨PieceKind.knight, color, r, 6⟩, some ⟨PieceKind.rook, color, r, 7⟩]

def pawn_rank (color : Color) (r : Int) : List (Option Piece) :=
  (ints8.map (fun c => some ⟨PieceKind.pawn, color, r, c⟩))

def empty_rank : List (Option Piece) := List.replicate 8 none

/-- `setup_initial_position`: white pieces on rows 0-1, black on rows 6-7. -/
def initial_grid : Grid :=
  [back_rank Color.white 0, pawn_rank Color.white 1,
   empty_rank, empty_rank, empty_rank, empty_rank,
   pawn_rank Color.black 6, back_rank Color.black 7]

/-! ### Positions used by concrete scenarios -/

/-- White pawn on its home square D2, black pawn on the intervening D3,
D4 empty. -/
def blocked_pawn_grid : Grid :=
  [empty_rank,
   ints8.map (fun c => if c = 3 then some ⟨PieceKind.pawn, Color.white, 1, 3⟩ else none),
   ints8.map (fun c => if c = 3 then some ⟨PieceKind.pawn, Color.black, 2, 3⟩ else none),
   empty_rank, empty_rank, empty_rank, empty_rank, empty_rank]

/-- White pawn one step from promotion on E7, kings far away. -/
def promo_grid : Grid :=
  [ints8.map (fun c => if c = 0 then some ⟨PieceKind.king, Color.white, 0, 0⟩ else none),
   empty_rank, empty_rank, empty_rank, empty_rank, empty_rank,
   ints8.map (fun c => if c = 4 then some ⟨PieceKind.pawn, Color.white, 6, 4⟩ else none),
   ints8.map (fun c => if c = 0 then some ⟨PieceKind.king, Color.black, 7, 0⟩ else none)]

/-- The spec's pin scenario: white King E1, white Rook E4, black Queen E8,
black King A8. -/
def pin_grid : Grid :=
  [ints8.map (fun c => if c = 4 then some ⟨PieceKind.king, Color.white, 0, 4⟩ else none),
   empty_rank, empty_rank,
   ints8.map (fun c => if c = 4 then some ⟨PieceKind.rook, Color.white, 3, 4⟩ else none),
   empty_rank, empty_rank, empty_rank,
   ints8.map (fun c =>
     if c = 0 then some ⟨PieceKind.king, Color.black, 7, 0⟩
     else if c = 4 then some ⟨PieceKind.queen, Color.black, 7, 4⟩ else none)]

/-- Two lone kings (A1 and H8). -/
def kings_grid : Grid :=
  [ints8.map (fun c => if c = 0 then some ⟨PieceKind.king, Color.white, 0, 0⟩ else none),
   empty_rank, empty_rank, empty_rank, empty_rank, empty_rank, empty_rank,
   ints8.map (fun c => if c = 7 then some ⟨PieceKind.king, Color.black, 7, 7⟩ else none)]

/-! ### Basic facts about grid access -/

/-- The value of a cell, as a total function (for stating theorems). -/
def cellAt (g : Grid) (r c : Nat) : Option Piece :=
  (((g.get? r).getD []).get? c).join

lemma pyGet_ok {α : Type} (xs : List α) (i : Int) (h0 : 0 ≤ i)
    (h1 : i < (xs.length : Int)) :
    pyGet xs i = match xs.get? i.toNat with
      | some a => Except.ok a
      | none => Except.error () := by
  unfold pyGet pyIdx
  rw [if_pos ⟨h0, h1⟩]

lemma pyGet_ok_get {α : Type} (xs : List α) (i : Int) (h0 : 0 ≤ i)
    (h1 : i < (xs.length : Int)) :
    ∃ a, pyGet xs i = Except.ok a ∧ xs.get? i.toNat = some a := by
  have hlt : i.toNat < xs.length := by omega
  have hget : xs.get? i.toNat = some (xs.get ⟨i.toNat, hlt⟩) := List.get?_eq_get hlt
  refine ⟨xs.get ⟨i.toNat, hlt⟩, ?_, hget⟩
  rw [pyGet_ok xs i h0 h1, hget]

lemma gridGet_ok (g : Grid) (hWF : GridWF g) (r c : Int) (hr0 : 0 ≤ r)
    (hr1 : r ≤ 7) (hc0 : 0 ≤ c) (hc1 : c ≤ 7) :
    gridGet g r c = Except.ok (cellAt g r.toNat c.toNat) := by
  obtain ⟨hlen, hrows⟩ := hWF
  obtain ⟨row, hrowEq, hrowGet⟩ := pyGet_ok_get g r hr0 (by omega)
  have hrowMem : row ∈ g := List.get?_mem hrowGet
  have hrlen : row.length = 8 := hrows row hrowMem
  obtain ⟨a, haEq, haGet⟩ := pyGet_ok_get row c hc0 (by omega)
  unfold gridGet
  rw [hrowEq]
  show pyGet row c = Except.ok (cellAt g r.toNat c.toNat)
  rw [haEq]
  unfold cellAt
  rw [hrowGet, List.get?_eq_getElem?] at *
  simp [haGet]

lemma gridGet_ok_exists (g : Grid) (hWF : GridWF g) (r c : Int) (hr0 : 0 ≤ r)
    (hr1 : r ≤ 7) (hc0 : 0 ≤ c) (hc1 : c ≤ 7) :
    ∃ v, gridGet g r c = Except.ok v :=
  ⟨_, gridGet_ok g hWF r c hr0 hr1 hc0 hc1⟩

/-- On an 8-element list, reading back indices 0..7 reproduces the list. -/
lemma mapE_pyGet_eta {α : Type} (xs : List α) (h : xs.length = 8) :
    mapE (fun i => pyGet xs i) ints8 = Except.ok xs := by
  rcases xs with _ | ⟨x0, _ | ⟨x1, _ | ⟨x2, _ | ⟨x3, _ | ⟨x4, _ | ⟨x5, _ |
    ⟨x6, _ | ⟨x7, _ | ⟨x8, tl⟩⟩⟩⟩⟩⟩⟩⟩⟩ <;> simp at h
  rfl

lemma mapE_nil {α β : Type} (f : α → Except Unit β) : mapE f [] = Except.ok [] :=
  rfl

lemma mapE_cons_ok {α β : Type} (f : α → Except Unit β) (a : α) (as : List α)
    (b : β) (bs : List β) (hf : f a = Except.ok b)
    (hm : mapE f as = Except.ok bs) : mapE f (a :: as) = Except.ok (b :: bs) := by
  unfold mapE
  rw [hf]
  show (match mapE f as with
    | Except.error e => Except.error e
    | Except.ok bs => Except.ok (b :: bs)) = Except.ok (b :: bs)
  rw [hm]

/-- Copying a well-formed grid reproduces it (piece `copy()` duplicates the
plain fields; `set_grid` repointing is the identity on plain data). -/
lemma copy_grid_wf (g : Grid) (hWF : GridWF g) : copy_grid g = Except.ok g := by
  obtain ⟨hlen, hrows⟩ := hWF
  have hrow : ∀ r : Int, 0 ≤ r → r < 8 → ∀ row, g.get? r.toNat = some row →
      mapE (fun c => gridGet g r c) ints8 = Except.ok row := by
    intro r h0 h1 row hrowGet
    obtain ⟨row', hrowEq, hrowGet'⟩ := pyGet_ok_get g r h0 (by omega)
    rw [hrowGet] at hrowGet'
    cases hrowGet'
    have hacc : (fun c => gridGet g r c) = fun c => pyGet row c := by
      funext c
      unfold gridGet
      rw [hrowEq]
    rw [hacc]
    exact mapE_pyGet_eta row (hrows row (List.get?_mem hrowGet))
  rcases g with _ | ⟨r0, _ | ⟨r1, _ | ⟨r2, _ | ⟨r3, _ | ⟨r4, _ | ⟨r5, _ |
    ⟨r6, _ | ⟨r7, _ | ⟨r8, tl⟩⟩⟩⟩⟩⟩⟩⟩⟩ <;> simp at hlen
  show mapE _ (0 :: 1 :: 2 :: 3 :: 4 :: 5 :: 6 :: 7 :: []) = _
  exact mapE_cons_ok _ _ _ _ _ (hrow 0 (by omega) (by omega) r0 rfl)
    (mapE_cons_ok _ _ _ _ _ (hrow 1 (by omega) (by omega) r1 rfl)
      (mapE_cons_ok _ _ _ _ _ (hrow 2 (by omega) (by omega) r2 rfl)
        (mapE_cons_ok _ _ _ _ _ (hrow 3 (by omega) (by omega) r3 rfl)
          (mapE_cons_ok _ _ _ _ _ (hrow 4 (by omega) (by omega) r4 rfl)
            (mapE_cons_ok _ _ _ _ _ (hrow 5 (by omega) (by omega) r5 rfl)
              (mapE_cons_ok _ _ _ _ _ (hrow 6 (by omega) (by omega) r6 rfl)
                (mapE_cons_ok _ _ _ _ _ (hrow 7 (by omega) (by omega) r7 rfl)
                  (mapE_nil _))))))))

/-! ### The codec round trip -/

/-- For every genuine square, the algebraic name is two characters and
decodes back to the indices it was built from. -/
lemma uci_rt (row col : Int) (h0 : 0 ≤ row) (h1 : row ≤ 7) (h2 : 0 ≤ col)
    (h3 : col ≤ 7) :
    ∃ u, indices_to_uci row col = Except.ok u ∧
      uci_to_indices u = some (row, col) ∧ u.length = 2 := by
  interval_cases row <;> interval_cases col <;> exact ⟨_, rfl, by decide, by decide⟩

/-- Distinct squares have distinct algebraic names. -/
lemma uci_inj (row col row' col' : Int) (h0 : 0 ≤ row) (h1 : row ≤ 7)
    (h2 : 0 ≤ col) (h3 : col ≤ 7) (h0' : 0 ≤ row') (h1' : row' ≤ 7)
    (h2' : 0 ≤ col') (h3' : col' ≤ 7) {u u' : String}
    (hu : indices_to_uci row col = Except.ok u)
    (hu' : indices_to_uci row' col' = Except.ok u') (huu : u = u') :
    row = row' ∧ col = col' := by
  obtain ⟨v, hv, hvDec, _⟩ := uci_rt row col h0 h1 h2 h3
  obtain ⟨v', hv', hvDec', _⟩ := uci_rt row' col' h0' h1' h2' h3'
  rw [hu] at hv
  rw [hu'] at hv'
  cases hv
  cases hv'
  subst huu
  rw [hvDec] at hvDec'
  cases hvDec'
  exact ⟨rfl, rfl⟩

/-- C7: for every (row, col) with both in [0,7], converting to the algebraic
square name and back returns exactly the original pair:
`to_indices(to_algebraic(row, col)) == (row, col)`. -/
theorem codec_round_trip (row col : Int) (h0 : 0 ≤ row) (h1 : row ≤ 7)
    (h2 : 0 ≤ col) (h3 : col ≤ 7) :
    ∃ u, indices_to_uci row col = Except.ok u ∧
      uci_to_indices u = some (row, col) := by
  obtain ⟨u, hu, hdec, _⟩ := uci_rt row col h0 h1 h2 h3
  exact ⟨u, hu, hdec⟩

theorem codec_round_trip_witness :
    ∃ u, indices_to_uci 3 4 = Except.ok u ∧ uci_to_indices u = some (3, 4) :=
  codec_round_trip 3 4 (by decide) (by decide) (by decide) (by decide)

/-- C8: the encoding direction `indices_to_uci` does NOT reject out-of-range
indices with the invalid sentinel: `(-1, 4)` yields the bogus square `"E0"`
(and `(3, 8)` raises an IndexError, modelled as an error), contradicting
unit test TC-UNIT-002, while the decoding direction does reject malformed
strings. -/
theorem indices_to_uci_unguarded :
    indices_to_uci (-1) 4 = Except.ok "E0" ∧
    indices_to_uci 3 8 = Except.error () ∧
    uci_to_indices "Z9" = none ∧ uci_to_indices "" = none := by
  exact ⟨rfl, rfl, by decide, by decide⟩

/-- A decoded square always lies on the board. -/
lemma uci_bounds (s : String) (r c : Int) (h : uci_to_indices s = some (r, c)) :
    0 ≤ r ∧ r ≤ 7 ∧ 0 ≤ c ∧ c ≤ 7 := by
  unfold uci_to_indices at h
  split at h
  · rename_i file_char rank_char _
    split_ifs at h with hcond
    · obtain ⟨hf, hrk⟩ := hcond
      rw [Option.some_inj, Prod.mk.injEq] at h
      obtain ⟨h1, h2⟩ := h
      simp [files] at hf
      simp [rankChars] at hrk
      have hfb : 65 ≤ file_char.toNat ∧ file_char.toNat ≤ 72 := by
        rcases hf with rfl|rfl|rfl|rfl|rfl|rfl|rfl|rfl <;> exact ⟨by decide, by decide⟩
      have hrb : 49 ≤ rank_char.toNat ∧ rank_char.toNat ≤ 56 := by
        rcases hrk with rfl|rfl|rfl|rfl|rfl|rfl|rfl|rfl <;> exact ⟨by decide, by decide⟩
      have c1 : ('1'.toNat : Int) = 49 := by decide
      have cA : ('A'.toNat : Int) = 65 := by decide
      rw [c1] at h1
      rw [cA] at h2
      omega
  · exact absurd h (by simp)

/-! ### Updating cells -/

lemma set_cell_wf (g : Grid) (hWF : GridWF g) (r c : Nat) (v : Option Piece) :
    GridWF (set_cell g r c v) := by
  obtain ⟨hlen, hrows⟩ := hWF
  constructor
  · simp [set_cell, hlen]
  · intro row hrow
    unfold set_cell at hrow
    rcases List.mem_or_eq_of_mem_set hrow with h | h
    · exact hrows row h
    · subst h
      rcases hget : g.get? r with _ | grow
      · have hlen2 : g.length ≤ r := List.get?_eq_none.mp hget
        rw [List.set_eq_of_length_le (by omega)] at hrow
        rw [hget] at hrow
        have := hrows [] hrow
        simp at this
      · have := hrows grow (List.get?_mem hget)
        simp [hget, this]

lemma cellAt_set_self (g : Grid) (hWF : GridWF g) (r c : Nat) (hr : r < 8)
    (hc : c < 8) (v : Option Piece) : cellAt (set_cell g r c v) r c = v := by
  obtain ⟨hlen, hrows⟩ := hWF
  have hrl : r < g.length := by omega
  have hget : g.get? r = some (g.get ⟨r, hrl⟩) := List.get?_eq_get hrl
  have hglen : (g.get ⟨r, hrl⟩).length = 8 := hrows _ (List.get?_mem hget)
  unfold cellAt set_cell
  simp only [List.get?_eq_getElem?] at hget ⊢
  rw [List.getElem?_set_eq_of_lt _ (by omega), hget]
  simp only [Option.getD_some]
  rw [List.getElem?_set_eq_of_lt _ (by rw [hglen]; exact hc)]
  rfl

lemma cellAt_set_ne (g : Grid) (r c : Nat) (v : Option Piece)
    (r' c' : Nat) (hne : r' ≠ r ∨ c' ≠ c) :
    cellAt (set_cell g r c v) r' c' = cellAt g r' c' := by
  by_cases hrr : r' = r
  · subst hrr
    have hcc : c' ≠ c := hne.resolve_left (by simp)
    by_cases hrl : r' < g.length
    · have hget : g.get? r' = some (g.get ⟨r', hrl⟩) := List.get?_eq_get hrl
      unfold cellAt set_cell
      simp only [List.get?_eq_getElem?] at hget ⊢
      rw [List.getElem?_set_eq_of_lt _ hrl, hget]
      simp only [Option.getD_some]
      rw [List.getElem?_set_ne (Ne.symm hcc)]
    · unfold cellAt set_cell
      rw [List.set_eq_of_length_le (by omega)]
  · unfold cellAt set_cell
    simp only [List.get?_eq_getElem?]
    rw [List.getElem?_set_ne (fun h => hrr h.symm)]

/-! ### `move_piece` on resolvable and unresolvable squares -/

/-- Successful `move_piece`: both squares resolve and a piece stands on the
source; the result is `apply_move` together with the destination square's
previous occupant. -/
lemma move_piece_eq (g : Grid) (hWF : GridWF g) (source destination : String)
    (sr sc dr dc : Int) (p : Piece)
    (hs : position_to_indices source = some (sr, sc))
    (hd : position_to_indices destination = some (dr, dc))
    (hp : gridGet g sr sc = Except.ok (some p)) :
    move_piece g source destination =
      Except.ok (some (apply_move g sr sc dr dc p), cellAt g dr.toNat dc.toNat) := by
  obtain ⟨hd0, hd1, hd2, hd3⟩ := uci_bounds destination dr dc hd
  have hcap := gridGet_ok g hWF dr dc hd0 hd1 hd2 hd3
  simp only [move_piece, copy_grid_wf g hWF, hs, hd, hp, hcap]

/-- C6 (amended): when the source square does not resolve to a piece —
malformed text or an empty square — `move_piece` raises (TypeError on
indexing with `None`, AttributeError on `None.set_row_col`), modelled as an
error; it has no return path producing a null board. -/
theorem move_piece_bad_source (g : Grid) (source destination : String)
    (hWF : GridWF g)
    (hbad : position_to_indices source = none ∨
      ∃ r c, position_to_indices source = some (r, c) ∧
        gridGet g r c = Except.ok none) :
    move_piece g source destination = Except.error () := by
  rcases hbad with hnone | ⟨r, c, hsome, hempty⟩
  · rcases hdest : position_to_indices destination with _ | ⟨dr, dc⟩ <;>
      simp only [move_piece, copy_grid_wf g hWF, hnone, hdest]
  · rcases hdest : position_to_indices destination with _ | ⟨dr, dc⟩ <;>
      simp only [move_piece, copy_grid_wf g hWF, hsome, hdest, hempty]

theorem move_piece_bad_source_witness :
    move_piece initial_grid "E5" "E6" = Except.error () :=
  move_piece_bad_source initial_grid "E5" "E6" (by decide)
    (Or.inr ⟨4, 4, by decide, by decide⟩)

/-- C6 (counterexample to the claim as stated): on the initial board the
empty source square E5 makes `move_piece` raise — the call does not return
a `(null board, no capture)` pair (which would be `Except.ok (none, none)`
in this embedding), it fails to return at all. -/
theorem move_piece_null_return_counterexample :
    move_piece initial_grid "E5" "E6" = Except.error () ∧
      move_piece initial_grid "E5" "E6" ≠ Except.ok (none, none) := by
  have h1 : move_piece initial_grid "E5" "E6" = Except.error () := rfl
  refine ⟨h1, ?_⟩
  rw [h1]
  intro h
  exact Except.noConfusion h

/-! ### The pawn double-move gate -/

lemma pawn_forward_block_ok (g : Grid) (hWF : GridWF g) (fr col : Int)
    (h0 : 0 ≤ fr) (h1 : fr ≤ 7) (h2 : 0 ≤ col) (h3 : col ≤ 7) :
    ∃ u, indices_to_uci fr col = Except.ok u ∧
      pawn_forward_block gridGet g fr col =
        Except.ok (if cellAt g fr.toNat col.toNat = none then [u] else []) := by
  obtain ⟨u, hu, _, _⟩ := uci_rt fr col h0 h1 h2 h3
  refine ⟨u, hu, ?_⟩
  unfold pawn_forward_block
  rw [gridGet_ok g hWF fr col h0 h1 h2 h3]
  by_cases h : cellAt g fr.toNat col.toNat = none <;> simp [h, hu]

lemma pawn_diag_block_ok (g : Grid) (hWF : GridWF g) (color : Color)
    (fr dcol : Int) (h0 : 0 ≤ fr) (h1 : fr ≤ 7) :
    ∃ m, pawn_diag_block gridGet g color fr dcol = Except.ok m ∧
      ∀ x ∈ m, (0 ≤ dcol ∧ dcol ≤ 7) ∧ indices_to_uci fr dcol = Except.ok x := by
  unfold pawn_diag_block
  by_cases hg : 0 ≤ dcol ∧ dcol ≤ 7
  · rw [if_pos hg, gridGet_ok g hWF fr dcol h0 h1 hg.1 hg.2]
    rcases hcell : cellAt g fr.toNat dcol.toNat with _ | q
    · exact ⟨[], rfl, by simp⟩
    · obtain ⟨u, hu, _, _⟩ := uci_rt fr dcol h0 h1 hg.1 hg.2
      by_cases hcolor : q.color ≠ color
      · refine ⟨[u], by simp [hcolor, hu], ?_⟩
        intro x hx
        rw [List.mem_singleton] at hx
        subst hx
        exact ⟨hg, hu⟩
      · exact ⟨[], by simp [hcolor], by simp⟩
  · exact ⟨[], by rw [if_neg hg], by simp⟩

lemma pawn_double_block_ok (g : Grid) (hWF : GridWF g)
    (row starting_row direction col : Int) (hrow : row = starting_row)
    (h0 : 0 ≤ row + direction + direction) (h1 : row + direction + direction ≤ 7)
    (h2 : 0 ≤ col) (h3 : col ≤ 7) :
    ∃ u, indices_to_uci (row + direction + direction) col = Except.ok u ∧
      pawn_double_block gridGet g row starting_row direction col =
        Except.ok (if cellAt g (row + direction + direction).toNat col.toNat = none
          then [u] else []) := by
  obtain ⟨u, hu, _, _⟩ := uci_rt (row + direction + direction) col h0 h1 h2 h3
  refine ⟨u, hu, ?_⟩
  unfold pawn_double_block
  rw [if_pos hrow, gridGet_ok g hWF _ col h0 h1 h2 h3]
  by_cases h : cellAt g (row + direction + direction).toNat col.toNat = none <;>
    simp [h, hu]

/-- C4 (counterexample): white pawn on its home square D2 with a black pawn
on the intervening square D3 and an empty D4.  The claim says the
forward-two destination is included exactly when the intervening square is
empty, so D4 must not appear; the code's move list is exactly `["D4"]`. -/
theorem pawn_double_move_counterexample :
    cellAt blocked_pawn_grid 2 3 = some ⟨PieceKind.pawn, Color.black, 2, 3⟩ ∧
    cellAt blocked_pawn_grid 3 3 = none ∧
    pawn_get_legal_moves ⟨PieceKind.pawn, Color.white, 1, 3⟩ blocked_pawn_grid =
      Except.ok ["D4"] :=
  ⟨rfl, rfl, rfl⟩

lemma pawn_double_core (g : Grid) (p : Piece) (hWF : GridWF g) (d strt : Int)
    (hd : d = (if p.color = Color.white then (1 : Int) else -1))
    (hst : strt = (if p.color = Color.white then (1 : Int) else 6))
    (hrow : p.row = strt) (hdne : d ≠ 0)
    (hfr0 : 0 ≤ p.row + d) (hfr1 : p.row + d ≤ 7)
    (hf20 : 0 ≤ p.row + d + d) (hf21 : p.row + d + d ≤ 7)
    (hc0 : 0 ≤ p.col) (hc1 : p.col ≤ 7) :
    ∃ ms u, pawn_get_legal_moves p g = Except.ok ms ∧
      indices_to_uci (p.row + d + d) p.col = Except.ok u ∧
      (u ∈ ms ↔ gridGet g (p.row + d + d) p.col = Except.ok none) := by
  obtain ⟨u1, hu1, hm1⟩ := pawn_forward_block_ok g hWF (p.row + d) p.col
    hfr0 hfr1 hc0 hc1
  obtain ⟨m2, hm2, hmem2⟩ := pawn_diag_block_ok g hWF p.color (p.row + d)
    (p.col - 1) hfr0 hfr1
  obtain ⟨m3, hm3, hmem3⟩ := pawn_diag_block_ok g hWF p.color (p.row + d)
    (p.col + 1) hfr0 hfr1
  obtain ⟨u, hu, hm4⟩ := pawn_double_block_ok g hWF p.row strt d p.col hrow
    hf20 hf21 hc0 hc1
  refine ⟨(if cellAt g (p.row + d).toNat p.col.toNat = none then [u1] else []) ++
    m2 ++ m3 ++
    (if cellAt g (p.row + d + d).toNat p.col.toNat = none then [u] else []),
    u, ?_, hu, ?_⟩
  · simp only [pawn_get_legal_moves, pawn_get_legal_moves_via]
    rw [← hd, ← hst]
    rw [hm1, hm2, hm3, hm4]
  · rw [gridGet_ok g hWF _ p.col hf20 hf21 hc0 hc1]
    have hne1 : u ∉ (if cellAt g (p.row + d).toNat p.col.toNat = none
        then [u1] else []) := by
      intro hmem
      have : u = u1 := by
        by_cases hcell : cellAt g (p.row + d).toNat p.col.toNat = none <;>
          simp [hcell] at hmem
        exact hmem
      obtain ⟨hr, _⟩ := uci_inj (p.row + d + d) p.col (p.row + d) p.col
        hf20 hf21 hc0 hc1 hfr0 hfr1 hc0 hc1 hu hu1 this
      omega
    have hne2 : u ∉ m2 := by
      intro hmem
      obtain ⟨⟨hb0, hb1⟩, hx⟩ := hmem2 u hmem
      obtain ⟨hr, _⟩ := uci_inj (p.row + d + d) p.col (p.row + d) (p.col - 1)
        hf20 hf21 hc0 hc1 hfr0 hfr1 hb0 hb1 hu hx rfl
      omega
    have hne3 : u ∉ m3 := by
      intro hmem
      obtain ⟨⟨hb0, hb1⟩, hx⟩ := hmem3 u hmem
      obtain ⟨hr, _⟩ := uci_inj (p.row + d + d) p.col (p.row + d) (p.col + 1)
        hf20 hf21 hc0 hc1 hfr0 hfr1 hb0 hb1 hu hx rfl
      omega
    constructor
    · intro hmem
      rcases List.mem_append.mp hmem with hmem | hmem
      · rcases List.mem_append.mp hmem with hmem | hmem
        · rcases List.mem_append.mp hmem with hmem | hmem
          · exact absurd hmem hne1
          · exact absurd hmem hne2
        · exact absurd hmem hne3
      · by_cases hcell : cellAt g (p.row + d + d).toNat p.col.toNat = none
        · rw [hcell]
        · simp [hcell] at hmem
    · intro hcell
      rw [Except.ok.injEq] at hcell
      refine List.mem_append.mpr (Or.inr ?_)
      simp [hcell]

/-- C4 (amended): for every pawn on its home rank, the forward-two
destination is included in the pseudo-legal move list exactly when the
forward-two DESTINATION square itself is empty; the occupancy of the
intervening forward-one square is not checked by `Pawn.get_legal_moves`
(the point-query `validate_pawn_move` checks both squares). -/
theorem pawn_double_move_corrected (g : Grid) (p : Piece) (hWF : GridWF g)
    (hrow : p.row = (if p.color = Color.white then (1 : Int) else 6))
    (hc0 : 0 ≤ p.col) (hc1 : p.col ≤ 7) :
    ∃ ms u, pawn_get_legal_moves p g = Except.ok ms ∧
      indices_to_uci
        (p.row + (if p.color = Color.white then (1 : Int) else -1) +
          (if p.color = Color.white then (1 : Int) else -1)) p.col =
        Except.ok u ∧
      (u ∈ ms ↔ gridGet g
        (p.row + (if p.color = Color.white then (1 : Int) else -1) +
          (if p.color = Color.white then (1 : Int) else -1)) p.col =
        Except.ok none) := by
  rcases hcol : p.color
  · have hrow' : p.row = (1 : Int) := by rw [hcol] at hrow; exact hrow
    exact pawn_double_core g p hWF 1 1 (by rw [hcol]; decide) (by rw [hcol]; decide) hrow'
      (by omega) (by omega) (by omega) (by omega) (by omega) hc0 hc1
  · have hrow' : p.row = (6 : Int) := by rw [hcol] at hrow; exact hrow
    exact pawn_double_core g p hWF (-1) 6 (by rw [hcol]; decide) (by rw [hcol]; decide) hrow'
      (by omega) (by omega) (by omega) (by omega) (by omega) hc0 hc1

theorem pawn_double_move_corrected_witness :
    ∃ ms u, pawn_get_legal_moves ⟨PieceKind.pawn, Color.white, 1, 3⟩
        blocked_pawn_grid = Except.ok ms ∧
      indices_to_uci 3 3 = Except.ok u ∧
      (u ∈ ms ↔ gridGet blocked_pawn_grid 3 3 = Except.ok none) := by
  have h := pawn_double_move_corrected blocked_pawn_grid
    ⟨PieceKind.pawn, Color.white, 1, 3⟩ (by decide) (by decide) (by decide)
    (by decide)
  simpa using h

/-- C5: whenever `move_piece` moves a pawn onto the far rank (row 7 for
white, row 0 for black), the new grid holds a Queen of the pawn's color at
the destination — never any other promotion piece — and the captured-piece
return is the destination square's previous occupant. -/
theorem pawn_forced_promotion (g : Grid) (source destination : String)
    (sr sc dr dc : Int) (p : Piece) (hWF : GridWF g)
    (hs : position_to_indices source = some (sr, sc))
    (hd : position_to_indices destination = some (dr, dc))
    (hp : gridGet g sr sc = Except.ok (some p))
    (hpt : p.piece_type = PieceKind.pawn)
    (hfar : (p.color = Color.white ∧ dr = 7) ∨ (p.color = Color.black ∧ dr = 0)) :
    ∃ g2, move_piece g source destination =
        Except.ok (some g2, cellAt g dr.toNat dc.toNat) ∧
      cellAt g2 dr.toNat dc.toNat = some ⟨PieceKind.queen, p.color, dr, dc⟩ := by
  obtain ⟨hd0, hd1, hd2, hd3⟩ := uci_bounds destination dr dc hd
  refine ⟨apply_move g sr sc dr dc p, move_piece_eq g hWF source destination
    sr sc dr dc p hs hd hp, ?_⟩
  have hdr8 : dr.toNat < 8 := by omega
  have hdc8 : dc.toNat < 8 := by omega
  unfold apply_move
  rcases hfar with ⟨hc, hdr⟩ | ⟨hc, hdr⟩ <;> subst hdr <;>
    simp only [hpt, hc, and_self, if_true, and_false, false_and, if_false,
      reduceIte, reduceCtorEq] <;>
    exact cellAt_set_self _ (set_cell_wf _ (set_cell_wf g hWF _ _ _) _ _ _) _ _
      hdr8 hdc8 _

theorem pawn_forced_promotion_witness :
    ∃ g2, move_piece promo_grid "E7" "E8" =
        Except.ok (some g2, cellAt promo_grid 7 4) ∧
      cellAt g2 7 4 = some ⟨PieceKind.queen, Color.white, 7, 4⟩ :=
  pawn_forced_promotion promo_grid "E7" "E8" 6 4 7 4
    ⟨PieceKind.pawn, Color.white, 6, 4⟩ (by decide) (by decide) (by decide)
    (by decide) rfl (Or.inl ⟨rfl, rfl⟩)

/-! ### The allocation-aware model of `move_piece` (no shared mutable state)

The plain embedding above cannot talk about Python object identity, so the
no-aliasing guarantee of `move_piece` is verified on a second, line-faithful
translation that additionally tracks allocation: each piece carries `pid`
(the object's address) and `gridRef` (the address of the list object its
`self.grid` points at), and a counter `σ` supplies fresh addresses. -/

structure APiece : Type where
  piece_type : PieceKind
  color : Color
  row : Int
  col : Int
  /-- this piece object's address -/
  pid : Nat
  /-- the address of the grid object `self.grid` refers to -/
  gridRef : Nat
deriving DecidableEq, Repr

abbrev AGrid : Type := List (List (Option APiece))

def cellA (g : AGrid) (r c : Nat) : Option APiece :=
  (((g.get? r).getD []).get? c).join

def set_cellA (g : AGrid) (r c : Nat) (v : Option APiece) : AGrid :=
  g.set r (((g.get? r).getD []).set c v)

/-- Every piece on an allocation-tracked grid, in scan order. -/
def piecesA (g : AGrid) : List APiece := g.flatten.filterMap (fun x => x)

/-- The first `move_piece` loop: `cur_piece.copy()` for every cell — each
clone is a NEW object (address `σ + 1 + (8r + c)`) whose fields, including
the `self.grid` reference passed to the constructor, equal the original's. -/
def clone_grid_alloc (σ : Nat) (g : AGrid) : AGrid :=
  (List.range 8).map (fun r => (List.range 8).map (fun c =>
    match cellA g r c with
    | none => none
    | some p => some { p with pid := σ + 1 + (8 * r + c) }))

/-- The second `move_piece` loop: `cur_piece.set_grid(new_grid)` on every
clone — repoint every piece's grid reference at the new grid object. -/
def repoint_grid (newGid : Nat) (g : AGrid) : AGrid :=
  g.map (fun row => row.map (fun cell =>
    cell.map (fun p => { p with gridRef := newGid })))

/-- The relocation and clearing writes of `move_piece`, applied to the
repointed clone grid. -/
def move_alloc_base (σ : Nat) (g : AGrid) (sr sc dr dc : Int)
    (piece0 : APiece) : AGrid :=
  set_cellA (set_cellA (repoint_grid σ (clone_grid_alloc σ g)) dr.toNat dc.toNat
    (some { piece0 with row := dr, col := dc })) sr.toNat sc.toNat none

/-- The full grid update of `move_piece`: relocation, clearing, then forced
promotion (the promotion Queen is a fresh object, address `σ + 66`, built
with a reference to the new grid). -/
def move_alloc_update (σ : Nat) (g : AGrid) (sr sc dr dc : Int)
    (piece0 : APiece) : AGrid :=
  if piece0.piece_type = PieceKind.pawn then
    if piece0.color = Color.white ∧ dr = 7 then
      set_cellA (move_alloc_base σ g sr sc dr dc piece0) dr.toNat dc.toNat
        (some ⟨PieceKind.queen, Color.white, dr, dc, σ + 66, σ⟩)
    else if piece0.color = Color.black ∧ dr = 0 then
      set_cellA (move_alloc_base σ g sr sc dr dc piece0) dr.toNat dc.toNat
        (some ⟨PieceKind.queen, Color.black, dr, dc, σ + 66, σ⟩)
    else move_alloc_base σ g sr sc dr dc piece0
  else move_alloc_base σ g sr sc dr dc piece0

/-- `Board.move_piece` with allocation tracking: the fresh `new_grid` list
object gets address `σ`, the clones get the next 64 addresses, a promotion
Queen is yet another fresh object.  `none` models the Python exception on
an unresolvable source. -/
def move_piece_alloc (σ gid : Nat) (g : AGrid) (source destination : String) :
    Option (Nat × Nat × AGrid × Option APiece) :=
  match position_to_indices source, position_to_indices destination with
  | some (source_row, source_col), some (dest_row, dest_col) =>
    match cellA (repoint_grid σ (clone_grid_alloc σ g))
        source_row.toNat source_col.toNat with
    | none => none
    | some piece0 =>
      some (σ + 67, σ,
        move_alloc_update σ g source_row source_col dest_row dest_col piece0,
        cellA (repoint_grid σ (clone_grid_alloc σ g))
          dest_row.toNat dest_col.toNat)
  | _, _ => none

/-- An allocation-tracked copy of a plain grid: piece at (r, c) has address
`8r + c`, all grid references point at the grid object `gid`. -/
def agrid_of (g : Grid) (gid : Nat) : AGrid :=
  (List.range 8).map (fun r => (List.range 8).map (fun c =>
    (cellAt g r c).map (fun p =>
      ⟨p.piece_type, p.color, p.row, p.col, 8 * r + c, gid⟩)))

lemma mem_piecesA_iff (g : AGrid) (q : APiece) :
    q ∈ piecesA g ↔ ∃ row ∈ g, some q ∈ row := by
  unfold piecesA
  rw [List.mem_filterMap]
  constructor
  · rintro ⟨a, ha, haq⟩
    obtain ⟨row, hrow, harow⟩ := List.mem_flatten.mp ha
    cases a with
    | none => exact absurd haq (by simp)
    | some x =>
      obtain rfl : x = q := by injection haq
      exact ⟨row, hrow, harow⟩
  · rintro ⟨row, hrow, hq⟩
    exact ⟨some q, List.mem_flatten.mpr ⟨row, hrow, hq⟩, rfl⟩

lemma mem_piecesA_of_cellA (g : AGrid) (r c : Nat) (p : APiece)
    (h : cellA g r c = some p) : p ∈ piecesA g := by
  unfold cellA at h
  rcases hget : g.get? r with _ | row
  · rw [hget] at h
    simp at h
  · rw [hget] at h
    simp only [Option.getD_some] at h
    rcases hc : row.get? c with _ | cell
    · rw [hc] at h
      simp at h
    · rw [hc] at h
      simp only [Option.join] at h
      subst h
      exact (mem_piecesA_iff g p).mpr
        ⟨row, List.get?_mem hget, List.get?_mem hc⟩

lemma mem_piecesA_set_cellA (g : AGrid) (r c : Nat) (v : Option APiece)
    (q : APiece) (h : q ∈ piecesA (set_cellA g r c v)) :
    q ∈ piecesA g ∨ v = some q := by
  obtain ⟨row, hrow, hq⟩ := (mem_piecesA_iff _ q).mp h
  unfold set_cellA at hrow
  rcases List.mem_or_eq_of_mem_set hrow with hmem | heq
  · exact Or.inl ((mem_piecesA_iff g q).mpr ⟨row, hmem, hq⟩)
  · subst heq
    rcases List.mem_or_eq_of_mem_set hq with hmem | heq
    · rcases hget : g.get? r with _ | grow
      · rw [hget] at hmem
        simp at hmem
      · rw [hget] at hmem
        simp only [Option.getD_some] at hmem
        exact Or.inl ((mem_piecesA_iff g q).mpr ⟨grow, List.get?_mem hget, hmem⟩)
    · exact Or.inr heq.symm

/-- Every piece of the repointed clone grid is a fresh object (address
above `σ`) whose grid reference is the new grid object. -/
lemma new_grid_pieces (σ n : Nat) (g : AGrid) (q : APiece)
    (h : q ∈ piecesA (repoint_grid n (clone_grid_alloc σ g))) :
    σ < q.pid ∧ q.gridRef = n := by
  obtain ⟨row, hrow, hq⟩ := (mem_piecesA_iff _ q).mp h
  unfold repoint_grid at hrow
  obtain ⟨row0, hrow0, rfl⟩ := List.mem_map.mp hrow
  obtain ⟨cell0, hcell0, hcq⟩ := List.mem_map.mp hq
  rcases cell0 with _ | p0
  · exact absurd hcq (by simp)
  · obtain rfl : { p0 with gridRef := n } = q := by injection hcq
    unfold clone_grid_alloc at hrow0
    obtain ⟨r, _, rfl⟩ := List.mem_map.mp hrow0
    obtain ⟨c, _, hcell⟩ := List.mem_map.mp hcell0
    rcases horig : cellA g r c with _ | porig <;> rw [horig] at hcell
    · exact absurd hcell (by simp)
    · obtain rfl : { porig with pid := σ + 1 + (8 * r + c) } = p0 := by
        injection hcell
      refine ⟨?_, rfl⟩
      show σ < σ + 1 + (8 * r + c)
      omega

/-- C3: on success, `move_piece` hands back a board that shares no objects
with the one it was invoked on: the new grid object is distinct from the
old (`gid' ≠ gid`), every piece of the new grid is a freshly allocated
clone (its address is unknown to the old grid, so mutating either board's
objects cannot affect the other), and every piece's grid reference has been
repointed at the new grid object.  The original grid value is untouched by
construction: the operation only reads it. -/
theorem move_piece_no_shared_state (σ gid : Nat) (g : AGrid)
    (source destination : String) (σ' gid' : Nat) (g' : AGrid)
    (cap : Option APiece) (hgid : gid < σ)
    (hfresh : ∀ q ∈ piecesA g, q.pid < σ)
    (hok : move_piece_alloc σ gid g source destination =
      some (σ', gid', g', cap)) :
    gid' ≠ gid ∧ (∀ q ∈ piecesA g', q.gridRef = gid') ∧
      (∀ q ∈ piecesA g', ∀ p ∈ piecesA g, q.pid ≠ p.pid) := by
  unfold move_piece_alloc at hok
  split at hok
  · split at hok
    · exact absurd hok (by simp)
    · rename_i x1 x2 sr sc dr dc heqs heqd x3 piece0 hp0
      rw [Option.some_inj, Prod.mk.injEq, Prod.mk.injEq, Prod.mk.injEq] at hok
      obtain ⟨rfl, rfl, rfl, rfl⟩ := hok
      have hpiece0 := new_grid_pieces σ σ g piece0 (mem_piecesA_of_cellA _ _ _ _ hp0)
      have base : ∀ x ∈ piecesA (move_alloc_base σ g sr sc dr dc piece0),
          σ < x.pid ∧ x.gridRef = σ := by
        intro x hx
        unfold move_alloc_base at hx
        rcases mem_piecesA_set_cellA _ _ _ _ _ hx with hx | hx
        · rcases mem_piecesA_set_cellA _ _ _ _ _ hx with hx | hx
          · exact new_grid_pieces σ σ g x hx
          · obtain rfl : { piece0 with row := dr, col := dc } = x := by injection hx
            exact hpiece0
        · exact absurd hx (by simp)
      have hmain : ∀ q ∈ piecesA (move_alloc_update σ g sr sc dr dc piece0),
          σ < q.pid ∧ q.gridRef = σ := by
        intro q hq
        unfold move_alloc_update at hq
        split at hq
        · split at hq
          · rcases mem_piecesA_set_cellA _ _ _ _ _ hq with hq | hq
            · exact base q hq
            · obtain rfl : (⟨PieceKind.queen, Color.white, dr, dc, σ + 66, σ⟩ :
                  APiece) = q := by injection hq
              refine ⟨?_, rfl⟩
              show σ < σ + 66
              omega
          · split at hq
            · rcases mem_piecesA_set_cellA _ _ _ _ _ hq with hq | hq
              · exact base q hq
              · obtain rfl : (⟨PieceKind.queen, Color.black, dr, dc, σ + 66, σ⟩ :
                    APiece) = q := by injection hq
                refine ⟨?_, rfl⟩
                show σ < σ + 66
                omega
            · exact base q hq
        · exact base q hq
      refine ⟨by omega, ?_, ?_⟩
      · intro q hq
        exact (hmain q hq).2
      · intro q hq p hp
        have h1 := (hmain q hq).1
        have h2 := hfresh p hp
        omega
  · exact absurd hok (by simp)

theorem move_piece_no_shared_state_witness :
    ∃ σ' gid' g' cap, move_piece_alloc 100 64 (agrid_of initial_grid 64)
        "E2" "E4" = some (σ', gid', g', cap) ∧
      gid' ≠ 64 ∧ (∀ q ∈ piecesA g', q.gridRef = gid') ∧
      (∀ q ∈ piecesA g', ∀ p ∈ piecesA (agrid_of initial_grid 64),
        q.pid ≠ p.pid) :=
  ⟨_, _, _, _, rfl, move_piece_no_shared_state 100 64
    (agrid_of initial_grid 64) "E2" "E4" _ _ _ _ (by omega) (by decide) rfl⟩

/-! ### Characterizing the check scan (C9) -/

lemma first_attack_true (g : Grid) (kp : String) (enemy : Color)
    (l : List (Int × Int)) (h : first_attack g kp enemy l = Except.ok true) :
    ∃ r c p ms, (r, c) ∈ l ∧ gridGet g r c = Except.ok (some p) ∧
      p.color = enemy ∧ get_legal_moves p g = Except.ok ms ∧ kp ∈ ms := by
  induction l with
  | nil => exact absurd h (by simp [first_attack])
  | cons rc rest ih =>
    rcases rc with ⟨r, c⟩
    unfold first_attack at h
    rcases hcell : gridGet g r c with e | (_ | piece) <;> rw [hcell] at h <;>
      simp only [] at h
    · exact absurd h (by simp)
    · obtain ⟨r', c', p, ms, hmem, hrest⟩ := ih h
      exact ⟨r', c', p, ms, List.mem_cons_of_mem _ hmem, hrest⟩
    · by_cases hcolor : piece.color ≠ enemy
      · rw [if_pos hcolor] at h
        obtain ⟨r', c', p, ms, hmem, hrest⟩ := ih h
        exact ⟨r', c', p, ms, List.mem_cons_of_mem _ hmem, hrest⟩
      · rw [if_neg hcolor] at h
        push_neg at hcolor
        rcases hmv : get_legal_moves piece g with e | ms <;> rw [hmv] at h <;>
          simp only [] at h
        · exact absurd h (by simp)
        by_cases hin : kp ∈ ms
        · exact ⟨r, c, piece, ms, List.mem_cons_self _ _, hcell, hcolor, hmv, hin⟩
        · rw [if_neg hin] at h
          obtain ⟨r', c', p, ms', hmem, hrest⟩ := ih h
          exact ⟨r', c', p, ms', List.mem_cons_of_mem _ hmem, hrest⟩

lemma first_attack_false (g : Grid) (kp : String) (enemy : Color)
    (l : List (Int × Int)) (h : first_attack g kp enemy l = Except.ok false) :
    ∀ r c p ms, (r, c) ∈ l → gridGet g r c = Except.ok (some p) →
      p.color = enemy → get_legal_moves p g = Except.ok ms → kp ∉ ms := by
  induction l with
  | nil =>
    intro r c p ms hmem
    exact absurd hmem (by simp)
  | cons rc rest ih =>
    rcases rc with ⟨r0, c0⟩
    unfold first_attack at h
    intro r c p ms hmem hcell hcolor hmv
    rcases hc0 : gridGet g r0 c0 with e | (_ | piece0) <;> rw [hc0] at h <;>
      simp only [] at h
    · exact absurd h (by simp)
    · rcases List.mem_cons.mp hmem with heq | hmem'
      · injection heq with h1 h2
        subst h1
        subst h2
        rw [hcell] at hc0
        exact absurd hc0 (by simp)
      · exact ih h r c p ms hmem' hcell hcolor hmv
    · rcases List.mem_cons.mp hmem with heq | hmem'
      · injection heq with h1 h2
        subst h1
        subst h2
        rw [hcell] at hc0
        obtain rfl : piece0 = p := by
          injection hc0 with hc0
          injection hc0 with hc0
          exact hc0.symm
        rw [if_neg (by simp [hcolor])] at h
        rw [hmv] at h
        simp only [] at h
        by_cases hin : kp ∈ ms
        · rw [if_pos hin] at h
          exact absurd h (by simp)
        · exact hin
      · by_cases hcol0 : piece0.color ≠ enemy
        · rw [if_pos hcol0] at h
          exact ih h r c p ms hmem' hcell hcolor hmv
        · rw [if_neg hcol0] at h
          rcases hmv0 : get_legal_moves piece0 g with e | ms0 <;> rw [hmv0] at h <;>
            simp only [] at h
          · exact absurd h (by simp)
          by_cases hin0 : kp ∈ ms0
          · rw [if_pos hin0] at h
            exact absurd h (by simp)
          · rw [if_neg hin0] at h
            exact ih h r c p ms hmem' hcell hcolor hmv

lemma find_king_scan_none (g : Grid) (color : Color) (l : List (Int × Int))
    (h : find_king_scan g color l = Except.ok none) :
    ∀ r c p, (r, c) ∈ l → gridGet g r c = Except.ok (some p) →
      ¬(p.piece_type = PieceKind.king ∧ p.color = color) := by
  induction l with
  | nil =>
    intro r c p hmem
    exact absurd hmem (by simp)
  | cons rc rest ih =>
    rcases rc with ⟨r0, c0⟩
    unfold find_king_scan at h
    intro r c p hmem hcell hking
    rcases hc0 : gridGet g r0 c0 with e | (_ | piece0) <;> rw [hc0] at h <;>
      simp only [] at h
    · exact absurd h (by simp)
    · rcases List.mem_cons.mp hmem with heq | hmem'
      · injection heq with h1 h2
        subst h1
        subst h2
        rw [hcell] at hc0
        exact absurd hc0 (by simp)
      · exact ih h r c p hmem' hcell hking
    · rcases List.mem_cons.mp hmem with heq | hmem'
      · injection heq with h1 h2
        subst h1
        subst h2
        rw [hcell] at hc0
        obtain rfl : piece0 = p := by
          injection hc0 with hc0
          injection hc0 with hc0
          exact hc0.symm
        rw [if_pos hking] at h
        exact absurd h (by simp)
      · by_cases hk0 : piece0.piece_type = PieceKind.king ∧ piece0.color = color
        · rw [if_pos hk0] at h
          exact absurd h (by simp)
        · rw [if_neg hk0] at h
          exact ih h r c p hmem' hcell hking

/-- C9 (spec-modelled): `is_in_check(color, grid)` returns false when no
king of the color is present (a missing king is tolerated, not an error),
and otherwise — whenever the scan completes — returns true exactly when
some piece of the opposite color has the king's algebraic square among its
pseudo-legal destinations.  The function is a pure read: it takes the grid
as a value and performs no update. -/
theorem is_in_check_characterization (color : Color) (g : Grid) :
    (find_king g color = Except.ok none →
      is_in_check color g = Except.ok false ∧
      ∀ r c p, (r, c) ∈ squares64 → gridGet g r c = Except.ok (some p) →
        ¬(p.piece_type = PieceKind.king ∧ p.color = color)) ∧
    (∀ b king_row king_col king_pos,
      find_king g color = Except.ok (some (king_row, king_col)) →
      indices_to_uci king_row king_col = Except.ok king_pos →
      is_in_check color g = Except.ok b →
      (b = true ↔ ∃ r c p ms, (r, c) ∈ squares64 ∧
        gridGet g r c = Except.ok (some p) ∧ p.color = other color ∧
        get_legal_moves p g = Except.ok ms ∧ king_pos ∈ ms)) := by
  constructor
  · intro hk
    constructor
    · unfold is_in_check
      rw [hk]
    · exact find_king_scan_none g color squares64 hk
  · intro b king_row king_col king_pos hfind huci hcheck
    unfold is_in_check at hcheck
    rw [hfind] at hcheck
    simp only [] at hcheck
    rw [huci] at hcheck
    simp only [] at hcheck
    constructor
    · intro hb
      subst hb
      exact first_attack_true g king_pos (other color) squares64 hcheck
    · rintro ⟨r, c, p, ms, hmem, hcell, hcolor, hmv, hin⟩
      cases b
      · exact absurd hin
          (first_attack_false g king_pos (other color) squares64 hcheck
            r c p ms hmem hcell hcolor hmv)
      · rfl

theorem is_in_check_characterization_witness :
    false = true ↔ ∃ r c p ms, (r, c) ∈ squares64 ∧
      gridGet initial_grid r c = Except.ok (some p) ∧
      p.color = other Color.white ∧
      get_legal_moves p initial_grid = Except.ok ms ∧ "E1" ∈ ms := by
  exact (is_in_check_characterization Color.white initial_grid).2 false 0 4 "E1"
    rfl rfl rfl

/-! ### The legal/self-check partition (C2) -/

lemma mapE_mem_src {α β : Type} (f : α → Except Unit β) (l : List α)
    (bs : List β) (h : mapE f l = Except.ok bs) (b : β) (hb : b ∈ bs) :
    ∃ a ∈ l, f a = Except.ok b := by
  induction l generalizing bs with
  | nil =>
    unfold mapE at h
    injection h with h
    subst h
    exact absurd hb (by simp)
  | cons a as ih =>
    unfold mapE at h
    rcases hfa : f a with e | b0 <;> rw [hfa] at h <;> simp only [] at h
    · exact absurd h (by simp)
    rcases hrest : mapE f as with e | bs0 <;> rw [hrest] at h <;>
      simp only [] at h
    · exact absurd h (by simp)
    injection h with h
    subst h
    rcases List.mem_cons.mp hb with rfl | hb2
    · exact ⟨a, List.mem_cons_self _ _, hfa⟩
    · obtain ⟨a2, ha2, hfa2⟩ := ih bs0 hrest hb2
      exact ⟨a2, List.mem_cons_of_mem _ ha2, hfa2⟩

lemma mapE_mem_tgt {α β : Type} (f : α → Except Unit β) (l : List α)
    (bs : List β) (h : mapE f l = Except.ok bs) (a : α) (ha : a ∈ l)
    (b : β) (hb : f a = Except.ok b) : b ∈ bs := by
  induction l generalizing bs with
  | nil => exact absurd ha (by simp)
  | cons a0 as ih =>
    unfold mapE at h
    rcases hfa : f a0 with e | b0 <;> rw [hfa] at h <;> simp only [] at h
    · exact absurd h (by simp)
    rcases hrest : mapE f as with e | bs0 <;> rw [hrest] at h <;>
      simp only [] at h
    · exact absurd h (by simp)
    injection h with h
    subst h
    rcases List.mem_cons.mp ha with rfl | ha2
    · rw [hb] at hfa
      injection hfa with hfa
      exact List.mem_cons.mpr (Or.inl hfa)
    · exact List.mem_cons_of_mem _ (ih bs0 hrest ha2)

lemma classify_move_ok (g : Grid) (color : Color) (sd : String × String)
    (x : (String × String) × Bool)
    (h : classify_move g color sd = Except.ok x) :
    ∃ g2 cap, move_piece g sd.1 sd.2 = Except.ok (some g2, cap) ∧
      is_in_check color g2 = Except.ok x.2 ∧ x.1 = sd := by
  unfold classify_move at h
  rcases hmp : move_piece g sd.1 sd.2 with e | ⟨_ | g2, cap⟩ <;>
    rw [hmp] at h <;> simp only [] at h
  · exact absurd h (by simp)
  · exact absurd h (by simp)
  · rcases hic : is_in_check color g2 with e | b <;> rw [hic] at h <;>
      simp only [] at h
    · exact absurd h (by simp)
    · injection h with h
      subst h
      exact ⟨g2, cap, rfl, hic, rfl⟩

/-- C2 (spec-modelled): `generate_valid_moves(color)` splits the
pseudo-legal moves into the two returned lists by the simulate-and-check
test: a space-joined move string lies in `legal_moves` exactly when it is a
pseudo-legal pair whose simulation via `move_piece` yields a grid in which
`is_in_check(color)` is false, and in `self_check_moves` exactly when the
simulation yields a grid in which `is_in_check(color)` is true. -/
theorem generate_valid_moves_partition (g : Grid) (color : Color)
    (L S : List String) (h : generate_valid_moves g color = Except.ok (L, S))
    (mv : String) :
    (mv ∈ L ↔ ∃ prs s d, pseudo_pairs g color = Except.ok prs ∧
      (s, d) ∈ prs ∧ (∃ g2 cap, move_piece g s d = Except.ok (some g2, cap) ∧
        is_in_check color g2 = Except.ok false) ∧ mv = s ++ " " ++ d) ∧
    (mv ∈ S ↔ ∃ prs s d, pseudo_pairs g color = Except.ok prs ∧
      (s, d) ∈ prs ∧ (∃ g2 cap, move_piece g s d = Except.ok (some g2, cap) ∧
        is_in_check color g2 = Except.ok true) ∧ mv = s ++ " " ++ d) := by
  unfold generate_valid_moves at h
  rcases hprs : pseudo_pairs g color with e | prs <;> rw [hprs] at h <;>
    simp only [] at h
  · exact absurd h (by simp)
  rcases hcls : mapE (classify_move g color) prs with e | cls <;>
    rw [hcls] at h <;> simp only [] at h
  · exact absurd h (by simp)
  injection h with h
  rw [Prod.mk.injEq] at h
  obtain ⟨rfl, rfl⟩ := h
  constructor
  · constructor
    · intro hmem
      obtain ⟨x, hxf, rfl⟩ := List.mem_map.mp hmem
      obtain ⟨hxcls, hxb⟩ := List.mem_filter.mp hxf
      obtain ⟨sd, hsd, hcl⟩ := mapE_mem_src _ _ _ hcls x hxcls
      obtain ⟨g2, cap, hmp, hic, hx1⟩ := classify_move_ok g color sd x hcl
      have hb : x.2 = false := by
        rcases hx2 : x.2
        · rfl
        · rw [hx2] at hxb
          exact absurd hxb (by simp)
      rw [hb] at hic
      refine ⟨prs, sd.1, sd.2, rfl, by simpa using hsd,
        ⟨g2, cap, hmp, hic⟩, by rw [hx1]⟩
    · rintro ⟨prs2, s, d, hprs2, hsd, ⟨g2, cap, hmp, hic⟩, rfl⟩
      injection hprs2 with hprs2
      subst hprs2
      have hcl : classify_move g color (s, d) = Except.ok ((s, d), false) := by
        unfold classify_move
        rw [hmp]
        simp only []
        rw [hic]
      have hx := mapE_mem_tgt _ _ _ hcls (s, d) hsd _ hcl
      exact List.mem_map.mpr ⟨((s, d), false),
        List.mem_filter.mpr ⟨hx, by simp⟩, rfl⟩
  · constructor
    · intro hmem
      obtain ⟨x, hxf, rfl⟩ := List.mem_map.mp hmem
      obtain ⟨hxcls, hxb⟩ := List.mem_filter.mp hxf
      obtain ⟨sd, hsd, hcl⟩ := mapE_mem_src _ _ _ hcls x hxcls
      obtain ⟨g2, cap, hmp, hic, hx1⟩ := classify_move_ok g color sd x hcl
      rw [hxb] at hic
      refine ⟨prs, sd.1, sd.2, rfl, by simpa using hsd,
        ⟨g2, cap, hmp, hic⟩, by rw [hx1]⟩
    · rintro ⟨prs2, s, d, hprs2, hsd, ⟨g2, cap, hmp, hic⟩, rfl⟩
      injection hprs2 with hprs2
      subst hprs2
      have hcl : classify_move g color (s, d) = Except.ok ((s, d), true) := by
        unfold classify_move
        rw [hmp]
        simp only []
        rw [hic]
      have hx := mapE_mem_tgt _ _ _ hcls (s, d) hsd _ hcl
      exact List.mem_map.mpr ⟨((s, d), true),
        List.mem_filter.mpr ⟨hx, by simp⟩, rfl⟩

theorem generate_valid_moves_partition_witness :
    ∃ L S, generate_valid_moves kings_grid Color.white = Except.ok (L, S) ∧
      ((("A1 A2" : String) ∈ L ↔ ∃ prs s d,
        pseudo_pairs kings_grid Color.white = Except.ok prs ∧ (s, d) ∈ prs ∧
        (∃ g2 cap, move_piece kings_grid s d = Except.ok (some g2, cap) ∧
          is_in_check Color.white g2 = Except.ok false) ∧
        ("A1 A2" : String) = s ++ " " ++ d) ∧
      (("A1 A2" : String) ∈ S ↔ ∃ prs s d,
        pseudo_pairs kings_grid Color.white = Except.ok prs ∧ (s, d) ∈ prs ∧
        (∃ g2 cap, move_piece kings_grid s d = Except.ok (some g2, cap) ∧
          is_in_check Color.white g2 = Except.ok true) ∧
        ("A1 A2" : String) = s ++ " " ++ d)) :=
  ⟨_, _, rfl, generate_valid_moves_partition kings_grid Color.white _ _ rfl
    "A1 A2"⟩

/-! ### Sanity of grids and success of move generation (C1, C10) -/

/-- The per-cell invariant the engine maintains: a piece's stored
coordinates equal its grid position, and no pawn sits on its own far rank
(forced promotion removes it). -/
def SaneCell : Nat → Nat → Option Piece → Prop
  | _, _, none => True
  | r, c, some p => p.row = (r : Int) ∧ p.col = (c : Int) ∧
      (p.piece_type = PieceKind.pawn →
        (p.color = Color.white → r ≠ 7) ∧ (p.color = Color.black → r ≠ 0))

instance (r c : Nat) : (op : Option Piece) → Decidable (SaneCell r c op)
  | none => isTrue trivial
  | some p => decidable_of_iff (p.row = (r : Int) ∧ p.col = (c : Int) ∧
      (p.piece_type = PieceKind.pawn →
        (p.color = Color.white → r ≠ 7) ∧ (p.color = Color.black → r ≠ 0)))
      Iff.rfl

def SaneGrid (g : Grid) : Prop :=
  GridWF g ∧ ∀ r ∈ List.range 8, ∀ c ∈ List.range 8, SaneCell r c (cellAt g r c)

instance : DecidablePred SaneGrid := fun g =>
  decidable_of_iff (GridWF g ∧ ∀ r ∈ List.range 8, ∀ c ∈ List.range 8,
    SaneCell r c (cellAt g r c)) Iff.rfl

lemma sane_cell_of (g : Grid) (hS : SaneGrid g) (r c : Nat) (hr : r < 8)
    (hc : c < 8) (p : Piece) (h : cellAt g r c = some p) :
    p.row = (r : Int) ∧ p.col = (c : Int) ∧
      (p.piece_type = PieceKind.pawn →
        (p.color = Color.white → r ≠ 7) ∧ (p.color = Color.black → r ≠ 0)) := by
  have := hS.2 r (List.mem_range.mpr hr) c (List.mem_range.mpr hc)
  rw [h] at this
  exact this

/-- A destination string names a real board square. -/
def Sq (u : String) : Prop :=
  ∃ dr dc : Int, 0 ≤ dr ∧ dr ≤ 7 ∧ 0 ≤ dc ∧ dc ≤ 7 ∧
    indices_to_uci dr dc = Except.ok u

lemma mapE_ok_of_all {α β : Type} (f : α → Except Unit β) (l : List α)
    (P : β → Prop) (h : ∀ a ∈ l, ∃ b, f a = Except.ok b ∧ P b) :
    ∃ bs, mapE f l = Except.ok bs ∧ ∀ b ∈ bs, P b := by
  induction l with
  | nil => exact ⟨[], rfl, by simp⟩
  | cons a as ih =>
    obtain ⟨b, hb, hPb⟩ := h a (List.mem_cons_self _ _)
    obtain ⟨bs, hbs, hPbs⟩ := ih (fun a2 ha2 => h a2 (List.mem_cons_of_mem _ ha2))
    refine ⟨b :: bs, ?_, ?_⟩
    · unfold mapE
      rw [hb]
      simp only []
      rw [hbs]
    · intro x hx
      rcases List.mem_cons.mp hx with rfl | hx
      · exact hPb
      · exact hPbs x hx

lemma walk_ok (g : Grid) (hWF : GridWF g) (color : Color) (row col fd hd : Int)
    (steps : List Int) :
    ∃ ms, walk g color row col fd hd steps = Except.ok ms ∧ ∀ u ∈ ms, Sq u := by
  induction steps with
  | nil => exact ⟨[], rfl, by simp⟩
  | cons i rest ih =>
    by_cases hb : row + i * fd < 0 ∨ row + i * fd > 7 ∨ col + i * hd < 0 ∨
      col + i * hd > 7
    · refine ⟨[], ?_, by simp⟩
      unfold walk
      rw [if_pos hb]
    · have hb2 := hb
      push_neg at hb2
      obtain ⟨h1, h2, h3, h4⟩ := hb2
      have h1' : 0 ≤ row + i * fd := by omega
      have h3' : 0 ≤ col + i * hd := by omega
      obtain ⟨u, hu, _, _⟩ := uci_rt (row + i * fd) (col + i * hd) h1' h2 h3' h4
      have hgrid := gridGet_ok g hWF (row + i * fd) (col + i * hd) h1' h2 h3' h4
      rcases hcell : cellAt g (row + i * fd).toNat (col + i * hd).toNat
        with _ | q
      · obtain ⟨tail, htail, htmem⟩ := ih
        refine ⟨u :: tail, ?_, ?_⟩
        · unfold walk
          rw [if_neg hb]
          rw [hcell] at hgrid
          simp only [hgrid, hu, htail]
        · intro x hx
          rcases List.mem_cons.mp hx with rfl | hx
          · exact ⟨_, _, h1', h2, h3', h4, hu⟩
          · exact htmem x hx
      · by_cases hq : q.color ≠ color
        · refine ⟨[u], ?_, ?_⟩
          · unfold walk
            rw [if_neg hb]
            rw [hcell] at hgrid
            simp only [hgrid, hu, if_pos hq]
          · intro x hx
            rcases List.mem_singleton.mp hx with rfl
            exact ⟨_, _, h1', h2, h3', h4, hu⟩
        · refine ⟨[], ?_, by simp⟩
          unfold walk
          rw [if_neg hb]
          rw [hcell] at hgrid
          simp only [hgrid, if_neg hq]

lemma walk_dirs_ok (g : Grid) (hWF : GridWF g) (color : Color) (row col : Int)
    (dirs : List (Int × Int)) (steps : List Int) :
    ∃ ms, walk_dirs g color row col dirs steps = Except.ok ms ∧
      ∀ u ∈ ms, Sq u := by
  obtain ⟨ls, hls, hmem⟩ := mapE_ok_of_all
    (fun dd => walk g color row col dd.1 dd.2 steps) dirs (fun bs => ∀ u ∈ bs, Sq u)
    (fun dd _ => walk_ok g hWF color row col dd.1 dd.2 steps)
  refine ⟨ls.flatten, ?_, ?_⟩
  · unfold walk_dirs
    rw [hls]
  · intro u hu
    obtain ⟨bs, hbs, hub⟩ := List.mem_flatten.mp hu
    exact hmem bs hbs u hub

lemma knight_step_ok (g : Grid) (hWF : GridWF g) (p : Piece) (o : Int × Int) :
    ∃ bs, knight_step g p o = Except.ok bs ∧ ∀ u ∈ bs, Sq u := by
  unfold knight_step
  by_cases hb : 0 ≤ p.row + o.1 ∧ 0 ≤ p.col + o.2 ∧ p.row + o.1 ≤ 7 ∧
    p.col + o.2 ≤ 7
  · obtain ⟨h1, h2, h3, h4⟩ := hb
    obtain ⟨u, hu, _, _⟩ := uci_rt (p.row + o.1) (p.col + o.2) h1 h3 h2 h4
    have hgrid := gridGet_ok g hWF (p.row + o.1) (p.col + o.2) h1 h3 h2 h4
    rcases hcell : cellAt g (p.row + o.1).toNat (p.col + o.2).toNat with _ | q
    · rw [hcell] at hgrid
      refine ⟨[u], ?_, ?_⟩
      · rw [if_pos ⟨h1, h2, h3, h4⟩]
        simp only [hgrid, hu]
      · intro x hx
        rcases List.mem_singleton.mp hx with rfl
        exact ⟨_, _, h1, h3, h2, h4, hu⟩
    · rw [hcell] at hgrid
      by_cases hq : q.color ≠ p.color
      · refine ⟨[u], ?_, ?_⟩
        · rw [if_pos ⟨h1, h2, h3, h4⟩]
          simp only [hgrid, if_pos hq, hu]
        · intro x hx
          rcases List.mem_singleton.mp hx with rfl
          exact ⟨_, _, h1, h3, h2, h4, hu⟩
      · refine ⟨[], ?_, by simp⟩
        rw [if_pos ⟨h1, h2, h3, h4⟩]
        simp only [hgrid, if_neg hq]
  · refine ⟨[], ?_, by simp⟩
    rw [if_neg hb]

lemma knight_ok (g : Grid) (hWF : GridWF g) (p : Piece) :
    ∃ ms, knight_get_legal_moves p g = Except.ok ms ∧ ∀ u ∈ ms, Sq u := by
  obtain ⟨ls, hls, hmem⟩ := mapE_ok_of_all (knight_step g p) knight_offsets
    (fun bs => ∀ u ∈ bs, Sq u) (fun o _ => knight_step_ok g hWF p o)
  refine ⟨ls.flatten, ?_, ?_⟩
  · unfold knight_get_legal_moves
    rw [hls]
  · intro u hu
    obtain ⟨bs, hbs, hub⟩ := List.mem_flatten.mp hu
    exact hmem bs hbs u hub

lemma pyGetStrict_ok {α : Type} (xs : List α) (i : Int) (h0 : 0 ≤ i)
    (h1 : i < (xs.length : Int)) : pyGetStrict xs i = pyGet xs i := by
  unfold pyGetStrict pyGet pyIdx
  rw [if_pos ⟨h0, h1⟩, if_pos ⟨h0, h1⟩]

lemma gridGetStrict_eq (g : Grid) (hWF : GridWF g) (r c : Int) (hr0 : 0 ≤ r)
    (hr1 : r ≤ 7) (hc0 : 0 ≤ c) (hc1 : c ≤ 7) :
    gridGetStrict g r c = gridGet g r c := by
  obtain ⟨hlen, hrows⟩ := hWF
  obtain ⟨row, hrowEq, hrowGet⟩ := pyGet_ok_get g r hr0 (by omega)
  have hrlen := hrows row (List.get?_mem hrowGet)
  unfold gridGetStrict gridGet
  rw [pyGetStrict_ok g r hr0 (by omega), hrowEq]
  show pyGetStrict row c = pyGet row c
  exact pyGetStrict_ok row c hc0 (by omega)

lemma pawn_forward_block_strict_eq (g : Grid) (hWF : GridWF g) (fr col : Int)
    (h0 : 0 ≤ fr) (h1 : fr ≤ 7) (h2 : 0 ≤ col) (h3 : col ≤ 7) :
    pawn_forward_block gridGetStrict g fr col =
      pawn_forward_block gridGet g fr col := by
  unfold pawn_forward_block
  rw [gridGetStrict_eq g hWF fr col h0 h1 h2 h3]

lemma pawn_diag_block_strict_eq (g : Grid) (hWF : GridWF g) (color : Color)
    (fr dcol : Int) (h0 : 0 ≤ fr) (h1 : fr ≤ 7) :
    pawn_diag_block gridGetStrict g color fr dcol =
      pawn_diag_block gridGet g color fr dcol := by
  unfold pawn_diag_block
  by_cases hg : 0 ≤ dcol ∧ dcol ≤ 7
  · rw [if_pos hg, if_pos hg, gridGetStrict_eq g hWF fr dcol h0 h1 hg.1 hg.2]
  · rw [if_neg hg, if_neg hg]

lemma pawn_double_block_strict_eq (g : Grid) (hWF : GridWF g)
    (row starting_row direction col : Int)
    (hdb : row = starting_row → 0 ≤ row + direction + direction ∧
      row + direction + direction ≤ 7) (hc0 : 0 ≤ col) (hc1 : col ≤ 7) :
    pawn_double_block gridGetStrict g row starting_row direction col =
      pawn_double_block gridGet g row starting_row direction col := by
  unfold pawn_double_block
  by_cases hrow : row = starting_row
  · obtain ⟨hb0, hb1⟩ := hdb hrow
    rw [if_pos hrow, if_pos hrow, gridGetStrict_eq g hWF _ col hb0 hb1 hc0 hc1]
  · rw [if_neg hrow, if_neg hrow]

lemma pawn_double_block_mem (g : Grid) (hWF : GridWF g)
    (row starting_row direction col : Int)
    (hdb : row = starting_row → 0 ≤ row + direction + direction ∧
      row + direction + direction ≤ 7) (hc0 : 0 ≤ col) (hc1 : col ≤ 7) :
    ∃ m, pawn_double_block gridGet g row starting_row direction col =
      Except.ok m ∧ ∀ x ∈ m, Sq x := by
  by_cases hrow : row = starting_row
  · obtain ⟨hb0, hb1⟩ := hdb hrow
    obtain ⟨u, hu, hblk⟩ := pawn_double_block_ok g hWF row starting_row
      direction col hrow hb0 hb1 hc0 hc1
    refine ⟨(if cellAt g (row + direction + direction).toNat col.toNat = none
      then [u] else []), hblk, ?_⟩
    intro x hx
    by_cases hcell : cellAt g (row + direction + direction).toNat col.toNat = none
    · rw [if_pos hcell] at hx
      rcases List.mem_singleton.mp hx with rfl
      exact ⟨_, _, hb0, hb1, hc0, hc1, hu⟩
    · rw [if_neg hcell] at hx
      exact absurd hx (by simp)
  · refine ⟨[], ?_, by simp⟩
    unfold pawn_double_block
    rw [if_neg hrow]

lemma pawn_blocks_ok (g : Grid) (hWF : GridWF g) (p : Piece)
    (hf0 : 0 ≤ p.row + (if p.color = Color.white then (1 : Int) else -1))
    (hf1 : p.row + (if p.color = Color.white then (1 : Int) else -1) ≤ 7)
    (hc0 : 0 ≤ p.col) (hc1 : p.col ≤ 7)
    (hdb : p.row = (if p.color = Color.white then (1 : Int) else 6) →
      0 ≤ p.row + (if p.color = Color.white then (1 : Int) else -1) +
          (if p.color = Color.white then (1 : Int) else -1) ∧
        p.row + (if p.color = Color.white then (1 : Int) else -1) +
          (if p.color = Color.white then (1 : Int) else -1) ≤ 7) :
    ∃ ms, pawn_get_legal_moves p g = Except.ok ms ∧
      pawn_get_legal_moves_strict p g = Except.ok ms ∧ ∀ u ∈ ms, Sq u := by
  obtain ⟨u1, hu1, hm1⟩ := pawn_forward_block_ok g hWF _ p.col hf0 hf1 hc0 hc1
  obtain ⟨m2, hm2, hmem2⟩ := pawn_diag_block_ok g hWF p.color _ (p.col - 1)
    hf0 hf1
  obtain ⟨m3, hm3, hmem3⟩ := pawn_diag_block_ok g hWF p.color _ (p.col + 1)
    hf0 hf1
  obtain ⟨m4, hm4, hmem4⟩ := pawn_double_block_mem g hWF p.row _ _ p.col hdb
    hc0 hc1
  refine ⟨(if cellAt g
      (p.row + (if p.color = Color.white then (1 : Int) else -1)).toNat
      p.col.toNat = none then [u1] else []) ++ m2 ++ m3 ++ m4, ?_, ?_, ?_⟩
  · simp only [pawn_get_legal_moves, pawn_get_legal_moves_via]
    rw [hm1, hm2, hm3, hm4]
  · simp only [pawn_get_legal_moves_strict, pawn_get_legal_moves_via]
    rw [pawn_forward_block_strict_eq g hWF _ _ hf0 hf1 hc0 hc1, hm1,
      pawn_diag_block_strict_eq g hWF _ _ _ hf0 hf1, hm2,
      pawn_diag_block_strict_eq g hWF _ _ _ hf0 hf1, hm3,
      pawn_double_block_strict_eq g hWF _ _ _ _ hdb hc0 hc1, hm4]
  · intro u hu
    rcases List.mem_append.mp hu with hu | hu
    · rcases List.mem_append.mp hu with hu | hu
      · rcases List.mem_append.mp hu with hu | hu
        · by_cases hcell : cellAt g
              (p.row + (if p.color = Color.white then (1 : Int) else -1)).toNat
              p.col.toNat = none
          · rw [if_pos hcell] at hu
            rcases List.mem_singleton.mp hu with rfl
            exact ⟨_, _, hf0, hf1, hc0, hc1, hu1⟩
          · rw [if_neg hcell] at hu
            exact absurd hu (by simp)
        · obtain ⟨⟨hb0, hb1⟩, hx⟩ := hmem2 u hu
          exact ⟨_, _, hf0, hf1, hb0, hb1, hx⟩
      · obtain ⟨⟨hb0, hb1⟩, hx⟩ := hmem3 u hu
        exact ⟨_, _, hf0, hf1, hb0, hb1, hx⟩
    · exact hmem4 u hu

lemma queen_ok (g : Grid) (hWF : GridWF g) (p : Piece) :
    ∃ ms, queen_get_legal_moves p g = Except.ok ms ∧ ∀ u ∈ ms, Sq u := by
  obtain ⟨ms1, hms1, hmem1⟩ := walk_dirs_ok g hWF p.color p.row p.col rook_dirs steps7
  obtain ⟨ms2, hms2, hmem2⟩ := walk_dirs_ok g hWF p.color p.row p.col bishop_dirs steps7
  refine ⟨ms1 ++ ms2, ?_, ?_⟩
  · unfold queen_get_legal_moves
    rw [hms1]
    simp only []
    rw [hms2]
  · intro u hu
    rcases List.mem_append.mp hu with hu | hu
    · exact hmem1 u hu
    · exact hmem2 u hu

lemma king_ok (g : Grid) (hWF : GridWF g) (p : Piece) :
    ∃ ms, king_get_legal_moves p g = Except.ok ms ∧ ∀ u ∈ ms, Sq u := by
  obtain ⟨ms1, hms1, hmem1⟩ := walk_dirs_ok g hWF p.color p.row p.col rook_dirs steps1
  obtain ⟨ms2, hms2, hmem2⟩ := walk_dirs_ok g hWF p.color p.row p.col bishop_dirs steps1
  refine ⟨ms1 ++ ms2, ?_, ?_⟩
  · unfold king_get_legal_moves
    rw [hms1]
    simp only []
    rw [hms2]
  · intro u hu
    rcases List.mem_append.mp hu with hu | hu
    · exact hmem1 u hu
    · exact hmem2 u hu

/-- Every piece standing on a sane grid generates its pseudo-legal move
list without error, and every generated destination is a real square. -/
lemma get_legal_moves_ok (g : Grid) (hS : SaneGrid g) (r c : Nat) (hr : r < 8)
    (hc : c < 8) (p : Piece) (hcell : cellAt g r c = some p) :
    ∃ ms, get_legal_moves p g = Except.ok ms ∧ ∀ u ∈ ms, Sq u := by
  obtain ⟨hrowp, hcolp, hpawn⟩ := sane_cell_of g hS r c hr hc p hcell
  have hWF := hS.1
  rcases hkind : p.piece_type
  case pawn =>
    have hc0 : 0 ≤ p.col := by rw [hcolp]; omega
    have hc1 : p.col ≤ 7 := by rw [hcolp]; omega
    have hf0 : 0 ≤ p.row + (if p.color = Color.white then (1 : Int) else -1) := by
      rcases hcol : p.color
      · show 0 ≤ p.row + 1
        omega
      · have h0 := (hpawn hkind).2 hcol
        show 0 ≤ p.row + -1
        omega
    have hf1 : p.row + (if p.color = Color.white then (1 : Int) else -1) ≤ 7 := by
      rcases hcol : p.color
      · have h7 := (hpawn hkind).1 hcol
        show p.row + 1 ≤ 7
        omega
      · show p.row + -1 ≤ 7
        omega
    have hdb : p.row = (if p.color = Color.white then (1 : Int) else 6) →
        0 ≤ p.row + (if p.color = Color.white then (1 : Int) else -1) +
            (if p.color = Color.white then (1 : Int) else -1) ∧
          p.row + (if p.color = Color.white then (1 : Int) else -1) +
            (if p.color = Color.white then (1 : Int) else -1) ≤ 7 := by
      rcases hcol : p.color <;> intro hrow
      · have hrow2 : p.row = (1 : Int) := hrow
        constructor
        · show 0 ≤ p.row + 1 + 1
          omega
        · show p.row + 1 + 1 ≤ 7
          omega
      · have hrow2 : p.row = (6 : Int) := hrow
        constructor
        · show 0 ≤ p.row + -1 + -1
          omega
        · show p.row + -1 + -1 ≤ 7
          omega
    obtain ⟨ms, hms, _, hmem⟩ := pawn_blocks_ok g hWF p hf0 hf1 hc0 hc1 hdb
    refine ⟨ms, ?_, hmem⟩
    simp only [get_legal_moves, hkind]
    exact hms
  case knight =>
    obtain ⟨ms, hms, hmem⟩ := knight_ok g hWF p
    refine ⟨ms, ?_, hmem⟩
    simp only [get_legal_moves, hkind]
    exact hms
  case bishop =>
    obtain ⟨ms, hms, hmem⟩ := walk_dirs_ok g hWF p.color p.row p.col bishop_dirs steps7
    refine ⟨ms, ?_, hmem⟩
    simp only [get_legal_moves, hkind]
    exact hms
  case rook =>
    obtain ⟨ms, hms, hmem⟩ := walk_dirs_ok g hWF p.color p.row p.col rook_dirs steps7
    refine ⟨ms, ?_, hmem⟩
    simp only [get_legal_moves, hkind]
    exact hms
  case queen =>
    obtain ⟨ms, hms, hmem⟩ := queen_ok g hWF p
    refine ⟨ms, ?_, hmem⟩
    simp only [get_legal_moves, hkind]
    exact hms
  case king =>
    obtain ⟨ms, hms, hmem⟩ := king_ok g hWF p
    refine ⟨ms, ?_, hmem⟩
    simp only [get_legal_moves, hkind]
    exact hms

/-! ### Characterizing the pseudo-legal pair sweep -/

/-- What membership in `pseudo_pairs` means: the source names an occupied
square of the mover's color, and the destination is one of that piece's
generated moves (itself a real square). -/
def PairSpec (g : Grid) (color : Color) (sd : String × String) : Prop :=
  ∃ sr sc : Int, 0 ≤ sr ∧ sr ≤ 7 ∧ 0 ≤ sc ∧ sc ≤ 7 ∧
    indices_to_uci sr sc = Except.ok sd.1 ∧
    (∃ p, cellAt g sr.toNat sc.toNat = some p ∧ p.color = color ∧
      ∃ ms, get_legal_moves p g = Except.ok ms ∧ sd.2 ∈ ms) ∧ Sq sd.2

lemma squares64_bounds :
    ∀ rc ∈ squares64, 0 ≤ rc.1 ∧ rc.1 ≤ 7 ∧ 0 ≤ rc.2 ∧ rc.2 ≤ 7 := by decide

lemma pairs_at_ok (g : Grid) (hS : SaneGrid g) (color : Color) (rc : Int × Int)
    (h0 : 0 ≤ rc.1) (h1 : rc.1 ≤ 7) (h2 : 0 ≤ rc.2) (h3 : rc.2 ≤ 7) :
    ∃ prs, pairs_at g color rc = Except.ok prs ∧
      ∀ sd ∈ prs, PairSpec g color sd := by
  have hgrid := gridGet_ok g hS.1 rc.1 rc.2 h0 h1 h2 h3
  rcases hcell : cellAt g rc.1.toNat rc.2.toNat with _ | p
  · rw [hcell] at hgrid
    refine ⟨[], ?_, by simp⟩
    unfold pairs_at
    rw [hgrid]
  · rw [hcell] at hgrid
    by_cases hcolor : p.color = color
    · obtain ⟨u, hu, _, _⟩ := uci_rt rc.1 rc.2 h0 h1 h2 h3
      obtain ⟨ms, hms, hmem⟩ := get_legal_moves_ok g hS rc.1.toNat rc.2.toNat
        (by omega) (by omega) p hcell
      refine ⟨ms.map (fun d => (u, d)), ?_, ?_⟩
      · unfold pairs_at
        rw [hgrid]
        simp only [if_pos hcolor, hu, hms]
      · intro sd hsd
        obtain ⟨d, hd, rfl⟩ := List.mem_map.mp hsd
        exact ⟨rc.1, rc.2, h0, h1, h2, h3, hu, ⟨p, hcell, hcolor,
          ms, hms, hd⟩, hmem d hd⟩
    · refine ⟨[], ?_, by simp⟩
      unfold pairs_at
      rw [hgrid]
      simp only [if_neg hcolor]

lemma pseudo_pairs_ok (g : Grid) (hS : SaneGrid g) (color : Color) :
    ∃ prs, pseudo_pairs g color = Except.ok prs ∧
      ∀ sd ∈ prs, PairSpec g color sd := by
  obtain ⟨ls, hls, hmem⟩ := mapE_ok_of_all (pairs_at g color) squares64
    (fun prs => ∀ sd ∈ prs, PairSpec g color sd)
    (fun rc hrc =>
      have hb := squares64_bounds rc hrc
      pairs_at_ok g hS color rc hb.1 hb.2.1 hb.2.2.1 hb.2.2.2)
  refine ⟨ls.flatten, ?_, ?_⟩
  · unfold pseudo_pairs
    rw [hls]
  · intro sd hsd
    obtain ⟨prs, hprs, hsdp⟩ := List.mem_flatten.mp hsd
    exact hmem prs hprs sd hsdp

/-! ### Success of the check scan on sane grids -/

lemma find_king_scan_ok (g : Grid) (hWF : GridWF g) (color : Color)
    (l : List (Int × Int))
    (hb : ∀ rc ∈ l, 0 ≤ rc.1 ∧ rc.1 ≤ 7 ∧ 0 ≤ rc.2 ∧ rc.2 ≤ 7) :
    ∃ o, find_king_scan g color l = Except.ok o := by
  induction l with
  | nil => exact ⟨none, rfl⟩
  | cons rc rest ih =>
    obtain ⟨h0, h1, h2, h3⟩ := hb rc (List.mem_cons_self _ _)
    have hgrid := gridGet_ok g hWF rc.1 rc.2 h0 h1 h2 h3
    obtain ⟨o, ho⟩ := ih (fun rc2 h => hb rc2 (List.mem_cons_of_mem _ h))
    rcases rc with ⟨r, c⟩
    unfold find_king_scan
    rcases hcell : cellAt g r.toNat c.toNat with _ | p <;> rw [hcell] at hgrid
    · exact ⟨o, by simp only [hgrid]; exact ho⟩
    · by_cases hk : p.piece_type = PieceKind.king ∧ p.color = color
      · exact ⟨some (r, c), by simp only [hgrid, if_pos hk]⟩
      · exact ⟨o, by simp only [hgrid, if_neg hk]; exact ho⟩

lemma find_king_scan_mem (g : Grid) (color : Color) (l : List (Int × Int))
    (kr kc : Int) (h : find_king_scan g color l = Except.ok (some (kr, kc))) :
    (kr, kc) ∈ l := by
  induction l with
  | nil => exact absurd h (by simp [find_king_scan])
  | cons rc rest ih =>
    rcases rc with ⟨r, c⟩
    unfold find_king_scan at h
    rcases hcell : gridGet g r c with e | (_ | p) <;> rw [hcell] at h <;>
      simp only [] at h
    · exact absurd h (by simp)
    · exact List.mem_cons_of_mem _ (ih h)
    · by_cases hk : p.piece_type = PieceKind.king ∧ p.color = color
      · rw [if_pos hk] at h
        injection h with h
        injection h with h
        rw [Prod.mk.injEq] at h
        obtain ⟨rfl, rfl⟩ := h
        exact List.mem_cons_self _ _
      · rw [if_neg hk] at h
        exact List.mem_cons_of_mem _ (ih h)

lemma first_attack_ok (g : Grid) (hS : SaneGrid g) (kp : String)
    (enemy : Color) (l : List (Int × Int))
    (hb : ∀ rc ∈ l, 0 ≤ rc.1 ∧ rc.1 ≤ 7 ∧ 0 ≤ rc.2 ∧ rc.2 ≤ 7) :
    ∃ b, first_attack g kp enemy l = Except.ok b := by
  induction l with
  | nil => exact ⟨false, rfl⟩
  | cons rc rest ih =>
    obtain ⟨h0, h1, h2, h3⟩ := hb rc (List.mem_cons_self _ _)
    have hgrid := gridGet_ok g hS.1 rc.1 rc.2 h0 h1 h2 h3
    obtain ⟨b, hbv⟩ := ih (fun rc2 h => hb rc2 (List.mem_cons_of_mem _ h))
    rcases rc with ⟨r, c⟩
    unfold first_attack
    rcases hcell : cellAt g r.toNat c.toNat with _ | p <;> rw [hcell] at hgrid
    · exact ⟨b, by simp only [hgrid]; exact hbv⟩
    · by_cases hcolor : p.color ≠ enemy
      · exact ⟨b, by simp only [hgrid, if_pos hcolor]; exact hbv⟩
      · obtain ⟨ms, hms, _⟩ := get_legal_moves_ok g hS r.toNat c.toNat
          (by omega) (by omega) p hcell
        by_cases hin : kp ∈ ms
        · exact ⟨true, by simp only [hgrid, if_neg hcolor, hms, if_pos hin]⟩
        · exact ⟨b, by simp only [hgrid, if_neg hcolor, hms, if_neg hin]; exact hbv⟩

lemma is_in_check_ok (g : Grid) (hS : SaneGrid g) (color : Color) :
    ∃ b, is_in_check color g = Except.ok b := by
  obtain ⟨o, ho⟩ := find_king_scan_ok g hS.1 color squares64 squares64_bounds
  unfold is_in_check find_king
  rcases o with _ | ⟨kr, kc⟩
  · exact ⟨false, by rw [ho]⟩
  · have hmem := find_king_scan_mem g color squares64 kr kc ho
    obtain ⟨hb0, hb1, hb2, hb3⟩ := squares64_bounds (kr, kc) hmem
    obtain ⟨u, hu, _, _⟩ := uci_rt kr kc hb0 hb1 hb2 hb3
    obtain ⟨b, hb⟩ := first_attack_ok g hS u (other color) squares64
      squares64_bounds
    exact ⟨b, by rw [ho]; simp only []; rw [hu]; simp only []; exact hb⟩

/-! ### `apply_move` preserves sanity (forced promotion removes far-rank pawns) -/

lemma apply_move_sane (g : Grid) (hS : SaneGrid g) (sr sc dr dc : Int)
    (hd0 : 0 ≤ dr) (hd1 : dr ≤ 7) (hd2 : 0 ≤ dc) (hd3 : dc ≤ 7) (p : Piece) :
    SaneGrid (apply_move g sr sc dr dc p) := by
  obtain ⟨hWF, hcells⟩ := hS
  have hdrv : ((dr.toNat : Int)) = dr := Int.toNat_of_nonneg hd0
  have hdcv : ((dc.toNat : Int)) = dc := Int.toNat_of_nonneg hd2
  have hWF1 : GridWF (set_cell g dr.toNat dc.toNat
      (some { p with row := dr, col := dc })) := set_cell_wf g hWF _ _ _
  have hWF2 : GridWF (set_cell (set_cell g dr.toNat dc.toNat
      (some { p with row := dr, col := dc })) sr.toNat sc.toNat none) :=
    set_cell_wf _ hWF1 _ _ _
  have hg2cell : ∀ r c : Nat, r < 8 → c < 8 →
      cellAt (set_cell (set_cell g dr.toNat dc.toNat
          (some { p with row := dr, col := dc })) sr.toNat sc.toNat none) r c =
        if r = sr.toNat ∧ c = sc.toNat then none
        else if r = dr.toNat ∧ c = dc.toNat then
          some { p with row := dr, col := dc }
        else cellAt g r c := by
    intro r c hr hc
    by_cases hsrc : r = sr.toNat ∧ c = sc.toNat
    · rw [if_pos hsrc]
      obtain ⟨rfl, rfl⟩ := hsrc
      exact cellAt_set_self _ hWF1 _ _ hr hc none
    · rw [if_neg hsrc, cellAt_set_ne _ _ _ _ r c (by tauto)]
      by_cases hdst : r = dr.toNat ∧ c = dc.toNat
      · rw [if_pos hdst]
        obtain ⟨rfl, rfl⟩ := hdst
        exact cellAt_set_self g hWF _ _ hr hc _
      · rw [if_neg hdst]
        exact cellAt_set_ne g _ _ _ r c (by tauto)
  have hsane2 : (p.piece_type = PieceKind.pawn →
      (p.color = Color.white → dr ≠ 7) ∧ (p.color = Color.black → dr ≠ 0)) →
      SaneGrid (set_cell (set_cell g dr.toNat dc.toNat
        (some { p with row := dr, col := dc })) sr.toNat sc.toNat none) := by
    intro hpcl
    refine ⟨hWF2, ?_⟩
    intro r hr c hc
    rw [List.mem_range] at hr hc
    rw [hg2cell r c hr hc]
    by_cases hsrc : r = sr.toNat ∧ c = sc.toNat
    · rw [if_pos hsrc]
      trivial
    · rw [if_neg hsrc]
      by_cases hdst : r = dr.toNat ∧ c = dc.toNat
      · rw [if_pos hdst]
        refine ⟨?_, ?_, ?_⟩
        · show dr = (r : Int)
          rw [hdst.1, hdrv]
        · show dc = (c : Int)
          rw [hdst.2, hdcv]
        · intro hpw
          have h2 := hpcl hpw
          constructor
          · intro hw
            have h7 := h2.1 hw
            omega
          · intro hb
            have h0 := h2.2 hb
            omega
      · rw [if_neg hdst]
        exact hcells r (List.mem_range.mpr hr) c (List.mem_range.mpr hc)
  have hsaneQ : ∀ qc : Color, SaneGrid (set_cell (set_cell (set_cell g
      dr.toNat dc.toNat (some { p with row := dr, col := dc }))
      sr.toNat sc.toNat none) dr.toNat dc.toNat
      (some ⟨PieceKind.queen, qc, dr, dc⟩)) := by
    intro qc
    refine ⟨set_cell_wf _ hWF2 _ _ _, ?_⟩
    intro r hr c hc
    rw [List.mem_range] at hr hc
    by_cases hdst : r = dr.toNat ∧ c = dc.toNat
    · obtain ⟨rfl, rfl⟩ := hdst
      rw [cellAt_set_self _ hWF2 _ _ hr hc]
      exact ⟨hdrv.symm, hdcv.symm, fun h => PieceKind.noConfusion h⟩
    · rw [cellAt_set_ne _ _ _ _ r c (by tauto), hg2cell r c hr hc]
      by_cases hsrc : r = sr.toNat ∧ c = sc.toNat
      · rw [if_pos hsrc]
        trivial
      · rw [if_neg hsrc, if_neg hdst]
        exact hcells r (List.mem_range.mpr hr) c (List.mem_range.mpr hc)
  show SaneGrid (
    if p.piece_type = PieceKind.pawn then
      if p.color = Color.white ∧ dr = 7 then
        set_cell (set_cell (set_cell g dr.toNat dc.toNat
          (some { p with row := dr, col := dc })) sr.toNat sc.toNat none)
          dr.toNat dc.toNat (some ⟨PieceKind.queen, Color.white, dr, dc⟩)
      else if p.color = Color.black ∧ dr = 0 then
        set_cell (set_cell (set_cell g dr.toNat dc.toNat
          (some { p with row := dr, col := dc })) sr.toNat sc.toNat none)
          dr.toNat dc.toNat (some ⟨PieceKind.queen, Color.black, dr, dc⟩)
      else set_cell (set_cell g dr.toNat dc.toNat
        (some { p with row := dr, col := dc })) sr.toNat sc.toNat none
    else set_cell (set_cell g dr.toNat dc.toNat
      (some { p with row := dr, col := dc })) sr.toNat sc.toNat none)
  by_cases hpw : p.piece_type = PieceKind.pawn
  · rw [if_pos hpw]
    by_cases hw : p.color = Color.white ∧ dr = 7
    · rw [if_pos hw]
      exact hsaneQ Color.white
    · rw [if_neg hw]
      by_cases hb : p.color = Color.black ∧ dr = 0
      · rw [if_pos hb]
        exact hsaneQ Color.black
      · rw [if_neg hb]
        exact hsane2 (fun _ => ⟨fun hwc h7 => hw ⟨hwc, h7⟩,
          fun hbc h0 => hb ⟨hbc, h0⟩⟩)
  · rw [if_neg hpw]
    exact hsane2 (fun h => absurd h hpw)

/-! ### Simulating a pseudo-legal pair always succeeds on a sane grid -/

lemma classify_ok_of_sane (g : Grid) (hS : SaneGrid g) (color : Color)
    (sd : String × String) (hspec : PairSpec g color sd) :
    ∃ b, classify_move g color sd = Except.ok (sd, b) := by
  obtain ⟨sr, sc, hs0, hs1, hs2, hs3, hus, ⟨p, hcell, hcolor, ms, hms, hd⟩,
    hSq⟩ := hspec
  obtain ⟨dr, dc, hd0, hd1, hd2, hd3, hud⟩ := hSq
  obtain ⟨us, hus2, husdec, _⟩ := uci_rt sr sc hs0 hs1 hs2 hs3
  rw [hus] at hus2
  injection hus2 with hus2
  subst hus2
  obtain ⟨ud, hud2, huddec, _⟩ := uci_rt dr dc hd0 hd1 hd2 hd3
  rw [hud] at hud2
  injection hud2 with hud2
  subst hud2
  have hgg : gridGet g sr sc = Except.ok (some p) := by
    rw [gridGet_ok g hS.1 sr sc hs0 hs1 hs2 hs3, hcell]
  have hmp := move_piece_eq g hS.1 sd.1 sd.2 sr sc dr dc p husdec huddec hgg
  have hsane2 := apply_move_sane g hS sr sc dr dc hd0 hd1 hd2 hd3 p
  obtain ⟨b, hic⟩ := is_in_check_ok _ hsane2 color
  refine ⟨b, ?_⟩
  unfold classify_move
  rw [hmp]
  simp only []
  rw [hic]

/-! ### Splitting a space-joined move string back into its halves -/

lemma str_data_eq {s t : String} (h : s.data = t.data) : s = t :=
  congrArg String.mk h

lemma join_move_inj (s d s2 d2 : String) (hs : s.length = 2)
    (hs2 : s2.length = 2) (h : s ++ " " ++ d = s2 ++ " " ++ d2) :
    s = s2 ∧ d = d2 := by
  have hdata : s.data ++ " ".data ++ d.data = s2.data ++ " ".data ++ d2.data := by
    have h2 := congrArg String.data h
    rwa [String.data_append, String.data_append, String.data_append,
      String.data_append] at h2
  have hsl : s.data.length = 2 := hs
  have hsl2 : s2.data.length = 2 := hs2
  obtain ⟨h1, h2⟩ := List.append_inj hdata (by simp [hsl, hsl2])
  obtain ⟨h3, _⟩ := List.append_inj h1 (by rw [hsl, hsl2])
  exact ⟨str_data_eq h3, str_data_eq h2⟩

/-- C1 (spec-modelled): whenever a requested move is pseudo-legal for the
mover's piece but simulating it leaves the mover's own king in check,
`is_valid_move` returns failure with exactly the fixed message
"Can't put your king in jeopardy"; in particular, in the pin position
(white King E1, white Rook E4, black Queen E8, black King A8) the rook move
E4-C4 off the pin line fails with that message while E4-E3 along the pin
line succeeds. -/
theorem is_valid_move_self_check :
    (∀ (g : Grid) (mover : Color) (prs : List (String × String)) (s d : String),
      SaneGrid g → pseudo_pairs g mover = Except.ok prs → (s, d) ∈ prs →
      (∃ g2 cap, move_piece g s d = Except.ok (some g2, cap) ∧
        is_in_check mover g2 = Except.ok true) →
      is_valid_move g s d mover =
        Except.ok (false, "Can't put your king in jeopardy")) ∧
    is_valid_move pin_grid "E4" "C4" Color.white =
      Except.ok (false, "Can't put your king in jeopardy") ∧
    is_valid_move pin_grid "E4" "E3" Color.white = Except.ok (true, "") := by
  refine ⟨?_, rfl, rfl⟩
  intro g mover prs s d hS hprs hmem hsim
  obtain ⟨g2, cap, hmp, hic⟩ := hsim
  obtain ⟨prsX, hprsX, hchar⟩ := pseudo_pairs_ok g hS mover
  rw [hprs] at hprsX
  injection hprsX with hprsX
  subst hprsX
  obtain ⟨sr, sc, hs0, hs1, hs2, hs3, hus, hocc, hSq⟩ := hchar (s, d) hmem
  obtain ⟨dr, dc, hd0, hd1, hd2, hd3, hud⟩ := hSq
  have husS : indices_to_uci sr sc = Except.ok s := hus
  have hudS : indices_to_uci dr dc = Except.ok d := hud
  obtain ⟨us, husq, husdec, huslen⟩ := uci_rt sr sc hs0 hs1 hs2 hs3
  rw [husS] at husq
  injection husq with husq
  subst husq
  obtain ⟨ud, hudq, huddec, hudlen⟩ := uci_rt dr dc hd0 hd1 hd2 hd3
  rw [hudS] at hudq
  injection hudq with hudq
  subst hudq
  obtain ⟨b, hcl⟩ := classify_ok_of_sane g hS mover (s, d) (hchar (s, d) hmem)
  obtain ⟨g2x, capx, hmpx, hicx, _⟩ := classify_move_ok g mover (s, d)
    ((s, d), b) hcl
  have hmpx2 : move_piece g s d = Except.ok (some g2x, capx) := hmpx
  rw [hmp] at hmpx2
  injection hmpx2 with hmpx2
  rw [Prod.mk.injEq] at hmpx2
  obtain ⟨hg2eq, _⟩ := hmpx2
  injection hg2eq with hg2eq
  subst hg2eq
  have hicx2 : is_in_check mover g2 = Except.ok b := hicx
  rw [hic] at hicx2
  injection hicx2 with hicx2
  subst hicx2
  obtain ⟨cls, hcls, _⟩ := mapE_ok_of_all (classify_move g mover) prs
    (fun _ => True)
    (by
      intro sd2 hsd2
      obtain ⟨b2, hb2⟩ := classify_ok_of_sane g hS mover sd2 (hchar sd2 hsd2)
      exact ⟨(sd2, b2), hb2, trivial⟩)
  have hgen : generate_valid_moves g mover = Except.ok
      ((cls.filter (fun x => !x.2)).map (fun x => x.1.1 ++ " " ++ x.1.2),
       (cls.filter (fun x => x.2)).map (fun x => x.1.1 ++ " " ++ x.1.2)) := by
    unfold generate_valid_moves
    rw [hprs]
    simp only []
    rw [hcls]
  have hmemcls : ((s, d), true) ∈ cls :=
    mapE_mem_tgt (classify_move g mover) prs cls hcls (s, d) hmem ((s, d), true) hcl
  have hmvS : (s ++ " " ++ d) ∈ (cls.filter (fun x => x.2)).map
      (fun x => x.1.1 ++ " " ++ x.1.2) := by
    refine List.mem_map.mpr ⟨((s, d), true), ?_, rfl⟩
    exact List.mem_filter.mpr ⟨hmemcls, rfl⟩
  have hmvL : (s ++ " " ++ d) ∉ (cls.filter (fun x => !x.2)).map
      (fun x => x.1.1 ++ " " ++ x.1.2) := by
    intro hcon
    obtain ⟨x, hxf, hxeq⟩ := List.mem_map.mp hcon
    obtain ⟨hxcls, hxb⟩ := List.mem_filter.mp hxf
    obtain ⟨sd2, hsd2, hclx⟩ := mapE_mem_src (classify_move g mover) prs cls
      hcls x hxcls
    obtain ⟨g2y, capy, hmpy, hicy, hx1⟩ := classify_move_ok g mover sd2 x hclx
    obtain ⟨sr2, sc2, hs20, hs21, hs22, hs23, hus2, _, hSq2⟩ := hchar sd2 hsd2
    obtain ⟨dr2, dc2, hd20, hd21, hd22, hd23, hud2⟩ := hSq2
    obtain ⟨us2, hus2q, _, hus2len⟩ := uci_rt sr2 sc2 hs20 hs21 hs22 hs23
    rw [hus2] at hus2q
    injection hus2q with hus2q
    subst hus2q
    rw [hx1] at hxeq
    obtain ⟨hseq, hdeq⟩ := join_move_inj sd2.1 sd2.2 s d hus2len huslen hxeq
    have hsd2eq : sd2 = (s, d) := Prod.ext hseq hdeq
    rw [hsd2eq] at hclx
    rw [hcl] at hclx
    injection hclx with hclx
    subst hclx
    simp at hxb
  unfold is_valid_move
  rw [husdec, huddec]
  simp only []
  rw [husS, hudS]
  simp only []
  rw [hgen]
  simp only []
  rw [if_neg hmvL, if_pos hmvS]

theorem is_valid_move_self_check_witness :
    is_valid_move pin_grid "E4" "C4" Color.white =
      Except.ok (false, "Can't put your king in jeopardy") :=
  is_valid_move_self_check.1 pin_grid Color.white _ "E4" "C4" (by decide) rfl
    (by decide) ⟨_, _, rfl, rfl⟩

/-! ### Reachability from the initial position (C10) -/

/-- Grids reachable from the initial position by successful `move_piece`
calls (each step the game loop actually commits). -/
inductive Reachable : Grid → Prop
  | init : Reachable initial_grid
  | step (g : Grid) (source destination : String) (g2 : Grid)
      (cap : Option Piece) : Reachable g →
      move_piece g source destination = Except.ok (some g2, cap) →
      Reachable g2

lemma move_piece_sane (g : Grid) (hS : SaneGrid g) (source destination : String)
    (g2 : Grid) (cap : Option Piece)
    (h : move_piece g source destination = Except.ok (some g2, cap)) :
    SaneGrid g2 := by
  unfold move_piece at h
  rw [copy_grid_wf g hS.1] at h
  simp only [] at h
  rcases hsrc : position_to_indices source with _ | ⟨sr, sc⟩ <;>
    rcases hdst : position_to_indices destination with _ | ⟨dr, dc⟩ <;>
    rw [hsrc, hdst] at h <;> simp only [] at h
  · exact absurd h (by simp)
  · exact absurd h (by simp)
  · exact absurd h (by simp)
  obtain ⟨hs0, hs1, hs2, hs3⟩ := uci_bounds source sr sc hsrc
  obtain ⟨hd0, hd1, hd2, hd3⟩ := uci_bounds destination dr dc hdst
  rw [gridGet_ok g hS.1 sr sc hs0 hs1 hs2 hs3] at h
  rcases hcell : cellAt g sr.toNat sc.toNat with _ | p <;> rw [hcell] at h <;>
    simp only [] at h
  · exact absurd h (by simp)
  rw [gridGet_ok g hS.1 dr dc hd0 hd1 hd2 hd3] at h
  simp only [] at h
  injection h with h
  rw [Prod.mk.injEq] at h
  obtain ⟨hg2, _⟩ := h
  injection hg2 with hg2
  subst hg2
  exact apply_move_sane g hS sr sc dr dc hd0 hd1 hd2 hd3 p

lemma reachable_sane (g : Grid) (h : Reachable g) : SaneGrid g := by
  induction h with
  | init => decide
  | step g source destination g2 cap hreach hmp ih =>
    exact move_piece_sane g ih source destination g2 cap hmp

/-- C10: on every grid reachable from the initial position, no white pawn
stands on row 7 and no black pawn on row 0 (forced promotion removed it),
and consequently every pawn's `get_legal_moves` reads only rows inside
[0,7]: it succeeds, and the strict accessor (which raises instead of
wrapping a negative index) computes the identical move list, so the
unguarded forward-row read never fails and never reads a wrapped row. -/
theorem reachable_pawn_rows_safe (g : Grid) (hreach : Reachable g) :
    ∀ r c : Nat, r < 8 → c < 8 → ∀ p, cellAt g r c = some p →
      p.piece_type = PieceKind.pawn →
      ((p.color = Color.white → r ≠ 7) ∧ (p.color = Color.black → r ≠ 0)) ∧
      ∃ ms, pawn_get_legal_moves p g = Except.ok ms ∧
        pawn_get_legal_moves_strict p g = Except.ok ms := by
  have hS := reachable_sane g hreach
  intro r c hr hc p hcell hpawn
  obtain ⟨hrow, hcol, hpcl⟩ := sane_cell_of g hS r c hr hc p hcell
  have hfar := hpcl hpawn
  refine ⟨hfar, ?_⟩
  have hc0 : 0 ≤ p.col := by rw [hcol]; omega
  have hc1 : p.col ≤ 7 := by rw [hcol]; omega
  have hf0 : 0 ≤ p.row + (if p.color = Color.white then (1 : Int) else -1) := by
    rcases hcolr : p.color
    · show 0 ≤ p.row + 1
      rw [hrow]
      omega
    · show 0 ≤ p.row + -1
      have h0 : r ≠ 0 := hfar.2 hcolr
      rw [hrow]
      omega
  have hf1 : p.row + (if p.color = Color.white then (1 : Int) else -1) ≤ 7 := by
    rcases hcolr : p.color
    · show p.row + 1 ≤ 7
      have h7 : r ≠ 7 := hfar.1 hcolr
      rw [hrow]
      omega
    · show p.row + -1 ≤ 7
      rw [hrow]
      omega
  have hdb : p.row = (if p.color = Color.white then (1 : Int) else 6) →
      0 ≤ p.row + (if p.color = Color.white then (1 : Int) else -1) +
          (if p.color = Color.white then (1 : Int) else -1) ∧
        p.row + (if p.color = Color.white then (1 : Int) else -1) +
          (if p.color = Color.white then (1 : Int) else -1) ≤ 7 := by
    rcases hcolr : p.color
    · intro hstart
      have hstart2 : p.row = (1 : Int) := hstart
      show 0 ≤ p.row + 1 + 1 ∧ p.row + 1 + 1 ≤ 7
      omega
    · intro hstart
      have hstart2 : p.row = (6 : Int) := hstart
      show 0 ≤ p.row + -1 + -1 ∧ p.row + -1 + -1 ≤ 7
      omega
  obtain ⟨ms, h1, h2, _⟩ := pawn_blocks_ok g hS.1 p hf0 hf1 hc0 hc1 hdb
  exact ⟨ms, h1, h2⟩

theorem reachable_pawn_rows_safe_witness :
    (((⟨PieceKind.pawn, Color.white, 1, 0⟩ : Piece).color = Color.white →
        (1 : Nat) ≠ 7) ∧
      ((⟨PieceKind.pawn, Color.white, 1, 0⟩ : Piece).color = Color.black →
        (1 : Nat) ≠ 0)) ∧
    ∃ ms, pawn_get_legal_moves ⟨PieceKind.pawn, Color.white, 1, 0⟩
        initial_grid = Except.ok ms ∧
      pawn_get_legal_moves_strict ⟨PieceKind.pawn, Color.white, 1, 0⟩
        initial_grid = Except.ok ms :=
  reachable_pawn_rows_safe initial_grid Reachable.init 1 0 (by decide)
    (by decide) ⟨PieceKind.pawn, Color.white, 1, 0⟩ (by decide) rfl

end Chess
